import Mathlib

/-!
Verification development for the incremental demuxing core:
the ADTS elementary-stream parser (`media/formats/mp2t/es_parser_adts.cc`)
and the WebM container walker (`packager/media/formats/webm/webm_media_parser.cc`).

Bytes are modelled as `Nat` (values below 256 in all concrete inputs); byte
buffers as `List Nat`; the sentinel `kNoTimestamp` as `Option Int`.  `DCHECK`s
are no-ops in release builds and are modelled as such.
-/

namespace Demux

/-! ## ADTS constants

The constants below live in `media/formats/mpeg/adts_constants.cc`, which is
not part of the sources at hand.  Modelled from the spec: the "fixed
minimum-header-size" of the frame-boundary search (the standard ADTS header is
7 bytes), the "static frequency table" (the 13 standard ADTS sampling
frequencies; the source's comment "Frequency index 13 & 14 are reserved while
15 means that the frequency is explicitly written" pins the table size at 13),
the standard ADTS channel-count table (8 entries), the fixed samples-per-frame
constant for AAC and the MPEG-2 timescale. -/

def kAdtsHeaderMinSize : Nat := 7

def kAdtsFrequencyTable : List Int :=
  [96000, 88200, 64000, 48000, 44100, 32000, 24000, 22050, 16000, 12000, 11025, 8000, 7350]

def kAdtsFrequencyTableSize : Nat := 13

def kAdtsNumChannelsTable : List Int := [-1, 1, 2, 3, 4, 5, 6, 8]

def kAdtsNumChannelsTableSize : Nat := 8

def kSamplesPerAACFrame : Nat := 1024

def kMpeg2Timescale : Nat := 90000

/-- Modelled from the spec: the sentinel "infinite duration" value passed to
the audio configuration (`kInfiniteDuration`, an int64 maximum). -/
def kInfiniteDuration : Int := 9223372036854775807

/-- Modelled from the spec: codec tag for AAC (`kCodecAAC`); the concrete
numeral is irrelevant, only its identity matters. -/
def kCodecAAC : Nat := 1

/-! ## ADTS header field extraction (es_parser_adts.cc lines 21-40) -/

/-- `ExtractAdtsFrameSize`: the declared frame size, spanning bits of header
bytes 3, 4 and 5 (source lines 21-25). -/
def extractAdtsFrameSize (raw : List Nat) (off : Nat) : Nat :=
  ((raw.getD (off + 5) 0) >>> 5) |||
  ((raw.getD (off + 4) 0) <<< 3) |||
  (((raw.getD (off + 3) 0) &&& 0x3) <<< 11)

/-- `ExtractAdtsFrequencyIndex` (source lines 27-29). -/
def extractAdtsFrequencyIndex (raw : List Nat) (off : Nat) : Nat :=
  ((raw.getD (off + 2) 0) >>> 2) &&& 0xf

/-- `ExtractAdtsChannelConfig` (source lines 31-34). -/
def extractAdtsChannelConfig (raw : List Nat) (off : Nat) : Nat :=
  (((raw.getD (off + 3) 0) >>> 6) &&& 0x3) |||
  (((raw.getD (off + 2) 0) &&& 0x1) <<< 2)

/-- `isAdtsSyncWord` (source lines 38-40): first byte fully set, high nibble of
the second byte set with the layer bits zero. -/
def isAdtsSyncWord (b0 b1 : Nat) : Bool :=
  b0 == 0xff && (b1 &&& 0xf6) == 0xf0

/-! ## Sync word search (`LookForSyncWord`, source lines 49-96) -/

structure SyncResult where
  found : Bool
  newPos : Nat
  frameSz : Nat
deriving DecidableEq, Repr

/-- The candidate test executed by the body of the scan loop (source lines
67-91): the two sync bytes must match, the declared frame size must be at
least the minimum header size, and, whenever enough trailing bytes remain to
corroborate (`remaining_size >= frame_size + 2`), a second sync word must
appear at `offset + frame_size`.  When trailing bytes are insufficient the
candidate is accepted speculatively. -/
def candAccept (raw : List Nat) (o : Nat) : Bool :=
  isAdtsSyncWord (raw.getD o 0) (raw.getD (o + 1) 0) &&
  decide (kAdtsHeaderMinSize ≤ extractAdtsFrameSize raw o) &&
  !(decide (o + extractAdtsFrameSize raw o + 2 ≤ raw.length) &&
    !isAdtsSyncWord (raw.getD (o + extractAdtsFrameSize raw o) 0)
      (raw.getD (o + extractAdtsFrameSize raw o + 1) 0))

/-- The scan loop of `LookForSyncWord` (source lines 67-95), fuel-indexed so
that it is structurally recursive; `lookForSyncWord` supplies fuel
`raw.length`, which always suffices since the loop advances one byte per
iteration.  On exhaustion of the loop range the source reports "not found" at
`max_offset = raw_es_size - kAdtsHeaderMinSize`. -/
def lookLoop (raw : List Nat) : Nat → Nat → SyncResult
  | 0, _ => ⟨false, raw.length - kAdtsHeaderMinSize, 0⟩
  | fuel + 1, off =>
    if off + kAdtsHeaderMinSize < raw.length then
      if candAccept raw off then ⟨true, off, extractAdtsFrameSize raw off⟩
      else lookLoop raw fuel (off + 1)
    else ⟨false, raw.length - kAdtsHeaderMinSize, 0⟩

/-- `LookForSyncWord` (source lines 49-96).  If `pos >= max_offset` the
position is left unchanged and no syncword is reported (source lines 56-65);
otherwise the loop scans offsets `pos, pos+1, ...` strictly below
`max_offset = raw_es_size - kAdtsHeaderMinSize`. -/
def lookForSyncWord (raw : List Nat) (pos : Nat) : SyncResult :=
  if raw.length ≤ pos + kAdtsHeaderMinSize then ⟨false, pos, 0⟩
  else lookLoop raw raw.length pos

/-! ## Audio timestamp helper

Modelled from the spec: `media/base/audio_timestamp_helper.h` is not among the
sources.  The spec describes it as "converts a frame count into a timeline
position given a fixed sample rate/timescale and a settable base offset",
exposing `SetBaseTimestamp(value)`, `GetTimestamp()`, `AddFrames(count)` and
`GetFrameDuration(samplesPerFrame)`.  A freshly constructed helper starts at
base position zero with no accumulated frames; `SetBaseTimestamp` restarts the
frame count at the given base. -/

structure AudioTimestampHelper where
  timescale : Nat
  sampleRate : Int
  baseTimestamp : Int
  frameCount : Nat
deriving DecidableEq, Repr

def mkAudioTimestampHelper (timescale : Nat) (sampleRate : Int) : AudioTimestampHelper :=
  ⟨timescale, sampleRate, 0, 0⟩

def AudioTimestampHelper.setBaseTimestamp (h : AudioTimestampHelper) (t : Int) :
    AudioTimestampHelper :=
  { h with baseTimestamp := t, frameCount := 0 }

def AudioTimestampHelper.getTimestamp (h : AudioTimestampHelper) : Int :=
  h.baseTimestamp + (h.frameCount * h.timescale : Nat) / h.sampleRate

def AudioTimestampHelper.addFrames (h : AudioTimestampHelper) (n : Nat) :
    AudioTimestampHelper :=
  { h with frameCount := h.frameCount + n }

def AudioTimestampHelper.getFrameDuration (h : AudioTimestampHelper) (n : Nat) : Int :=
  ((h.frameCount + n) * h.timescale : Nat) / h.sampleRate -
    (h.frameCount * h.timescale : Nat) / h.sampleRate

/-! ## Audio configuration and emissions -/

/-- The fields of the `AudioStreamInfo` constructed at source lines 232-245.
The codec strings, the audio-specific-config pointer and the language field
are compile-time constants (empty/null) in the source and are omitted. -/
structure AudioStreamInfo where
  trackId : Nat
  timeScale : Nat
  duration : Int
  codec : Nat
  sampleBits : Nat
  numChannels : Int
  samplingFrequency : Int
deriving DecidableEq, Repr

/-- One observable emission of the ES parser: a `ConfigurationReady` callback
(`new_audio_config_cb_`) or a `SampleReady` callback (`emit_sample_cb_`). -/
inductive EsEvent
  | configReady (config : AudioStreamInfo)
  | sampleReady (payload : List Nat) (pts : Int) (dts : Int) (duration : Int) (keyFrame : Bool)
deriving DecidableEq, Repr

def isConfigReady : EsEvent → Bool
  | .configReady _ => true
  | .sampleReady _ _ _ _ _ => false

def countConfigReady (events : List EsEvent) : Nat :=
  (events.filter isConfigReady).length

/-! ## ES parser state (`EsParserAdts`) -/

/-- The mutable state of `EsParserAdts`: the ES byte queue, the pending
timestamp list `pts_list_` of (byte offset, pts) pairs — offsets are `int` in
the source and may go negative — the established audio configuration and the
timestamp helper.  `track_id` and `sbr_in_mimetype_` are set at construction. -/
structure EsParserAdts where
  trackId : Nat
  sbrInMimetype : Bool
  esByteQueue : List Nat
  ptsList : List (Int × Int)
  lastAudioDecoderConfig : Option AudioStreamInfo
  audioTimestampHelper : Option AudioTimestampHelper
deriving DecidableEq, Repr

def mkEsParserAdts (trackId : Nat) (sbrInMimetype : Bool) : EsParserAdts :=
  ⟨trackId, sbrInMimetype, [], [], none, none⟩

/-- `EsParserAdts::Reset` (source lines 191-195): clears the byte queue, the
pending-timestamp list and the decoder configuration.  The timestamp helper is
not cleared. -/
def EsParserAdts.reset (s : EsParserAdts) : EsParserAdts :=
  { s with esByteQueue := [], ptsList := [], lastAudioDecoderConfig := none }

/-- `EsParserAdts::Flush` (source lines 188-189): no-op. -/
def EsParserAdts.flush (s : EsParserAdts) : EsParserAdts := s

/-- The value `extended_samples_per_second` computed at source lines 228-230:
double the table rate and cap at 48000 when the SBR mode flag is set. -/
def extendedSampleRate (sbr : Bool) (rate : Int) : Int :=
  if sbr then min (2 * rate) 48000 else rate

/-- The header-validation predicate of `UpdateAudioConfiguration` (source
lines 204-217): the frequency index must name a table entry and the channel
configuration must be a nonzero table index. -/
def validHeaderConfig (raw : List Nat) (off : Nat) : Bool :=
  decide (extractAdtsFrequencyIndex raw off < kAdtsFrequencyTableSize) &&
  decide (extractAdtsChannelConfig raw off ≠ 0) &&
  decide (extractAdtsChannelConfig raw off < kAdtsNumChannelsTableSize)

/-- `EsParserAdts::UpdateAudioConfiguration` (source lines 197-266), acting on
the configuration/helper components of the parser state.  Returns `none` when
the source returns `false` (validation failure).  On success it returns the
established configuration, the (always present) timestamp helper, and the
configuration-ready emissions fired.  When a configuration already exists the
source returns `true` immediately without re-validation; in every reachable
such state the helper exists, and the source dereferences it unconditionally
afterwards (modelled by `Option.getD`).

Note: `extended_samples_per_second` (see `extendedSampleRate`) is computed by
the source but only logged; the `AudioStreamInfo` is constructed with the
uncorrected `samples_per_second` (source line 241 area), and the timestamp
helper likewise uses `samples_per_second`. -/
def updateAudioConfiguration (sbr : Bool) (trackId : Nat)
    (config : Option AudioStreamInfo) (helper : Option AudioTimestampHelper)
    (raw : List Nat) (off : Nat) :
    Option (AudioStreamInfo × AudioTimestampHelper × List EsEvent) :=
  match config with
  | some c =>
    some (c, helper.getD (mkAudioTimestampHelper kMpeg2Timescale c.samplingFrequency), [])
  | none =>
    let frequencyIndex := extractAdtsFrequencyIndex raw off
    if kAdtsFrequencyTableSize ≤ frequencyIndex then none
    else
      let channelConfiguration := extractAdtsChannelConfig raw off
      if channelConfiguration = 0 ∨ kAdtsNumChannelsTableSize ≤ channelConfiguration then none
      else
        let samplesPerSecond := kAdtsFrequencyTable.getD frequencyIndex 0
        -- The source computes `extended_samples_per_second` here (lines
        -- 228-230) but uses it only in a DVLOG statement.
        let _extendedSamplesPerSecond := extendedSampleRate sbr samplesPerSecond
        let cfg : AudioStreamInfo :=
          ⟨trackId, kMpeg2Timescale, kInfiniteDuration, kCodecAAC, 16,
           kAdtsNumChannelsTable.getD channelConfiguration 0, samplesPerSecond⟩
        let h :=
          match helper with
          | some hh =>
            (mkAudioTimestampHelper kMpeg2Timescale samplesPerSecond).setBaseTimestamp
              hh.getTimestamp
          | none => mkAudioTimestampHelper kMpeg2Timescale samplesPerSecond
        some (cfg, h, [EsEvent.configReady cfg])

/-- The pending-timestamp application loop (source lines 152-156): pop
entries from the front while their recorded offset is at most the frame's
start offset, setting each popped value as the new base timestamp. -/
def popApplyPts (l : List (Int × Int)) (h : AudioTimestampHelper) (p : Int) :
    List (Int × Int) × AudioTimestampHelper :=
  match l with
  | [] => ([], h)
  | e :: rest =>
    if e.1 ≤ p then popApplyPts rest (h.setBaseTimestamp e.2) p
    else (e :: rest, h)

/-- Result of the frame loop of `EsParserAdts::Parse`.  `corrob` is
verification instrumentation only: it is `true` iff every frame emitted by the
loop was corroborated (a full corroboration window `frame start + frame size
+ 2 ≤ buffer size` was available); it influences neither the state, the
events nor the success flag. -/
structure AdtsLoopOut where
  pos : Nat
  ptsList : List (Int × Int)
  config : Option AudioStreamInfo
  helper : Option AudioTimestampHelper
  events : List EsEvent
  ok : Bool
  corrob : Bool
deriving Repr

/-- The frame loop of `EsParserAdts::Parse` (source lines 130-180),
fuel-indexed so that it is structurally recursive; `parse` supplies fuel
`raw.length + 1`, which always suffices because each iteration advances the
scan position by at least `kAdtsHeaderMinSize` bytes.  Each iteration: search
for a syncword; stop when none is found or the found frame is partial
(`frame_size > remaining_size`); otherwise update the configuration (aborting
the whole call on validation failure), apply pending timestamps, emit the
sample, advance the helper and skip the frame. -/
def adtsParseLoop (raw : List Nat) (sbr : Bool) (trackId : Nat) :
    Nat → Nat → List (Int × Int) → Option AudioStreamInfo →
    Option AudioTimestampHelper → AdtsLoopOut
  | 0, pos, pl, cfg, h => ⟨pos, pl, cfg, h, [], true, true⟩
  | fuel + 1, pos, pl, cfg, h =>
    let r := lookForSyncWord raw pos
    if r.found then
      if r.newPos + r.frameSz ≤ raw.length then
        match updateAudioConfiguration sbr trackId cfg h raw r.newPos with
        | none => ⟨r.newPos, pl, cfg, h, [], false, true⟩
        | some (c, h1, cfgEvents) =>
          let pa := popApplyPts pl h1 (r.newPos : Int)
          let pts := pa.2.getTimestamp
          let dur := pa.2.getFrameDuration kSamplesPerAACFrame
          let payload := (raw.drop r.newPos).take r.frameSz
          let h2 := pa.2.addFrames kSamplesPerAACFrame
          let rest := adtsParseLoop raw sbr trackId fuel (r.newPos + r.frameSz) pa.1
            (some c) (some h2)
          ⟨rest.pos, rest.ptsList, rest.config, rest.helper,
           cfgEvents ++ EsEvent.sampleReady payload pts pts dur true :: rest.events,
           rest.ok, decide (r.newPos + r.frameSz + 2 ≤ raw.length) && rest.corrob⟩
      else ⟨r.newPos, pl, cfg, h, [], true, true⟩
    else ⟨r.newPos, pl, cfg, h, [], true, true⟩

/-- `EsParserAdts::DiscardEs` (source lines 268-279): shift every pending
timestamp's offset down by the discarded byte count and pop those bytes from
the queue; a no-op for `nbytes = 0`. -/
def discardEs (s : EsParserAdts) (nbytes : Nat) : EsParserAdts :=
  if nbytes = 0 then s
  else
    { s with
      ptsList := s.ptsList.map (fun e => (e.1 - (nbytes : Int), e.2)),
      esByteQueue := s.esByteQueue.drop nbytes }

/-- Result of one `Parse` call: the new parser state, the emissions fired (in
order), the boolean return value, and the `corrob` instrumentation bit of the
frame loop (see `AdtsLoopOut.corrob`). -/
structure AdtsParseOut where
  state : EsParserAdts
  events : List EsEvent
  ok : Bool
  corrob : Bool
deriving Repr

/-- `EsParserAdts::Parse` (source lines 114-186).  If a pts is supplied it is
recorded against the byte offset equal to the unconsumed length before the new
bytes are appended (lines 120-123); the new bytes are pushed; the frame loop
runs from offset 0; on success all bytes up to the final scan position are
discarded, while on failure (configuration validation) the call returns
immediately with nothing discarded.  The `dts` argument is unused by the
source. -/
def EsParserAdts.parse (s : EsParserAdts) (buf : List Nat)
    (pts : Option Int) (_dts : Option Int) : AdtsParseOut :=
  let s1 :=
    match pts with
    | some p => { s with ptsList := s.ptsList ++ [((s.esByteQueue.length : Int), p)] }
    | none => s
  let raw := s1.esByteQueue ++ buf
  let s2 := { s1 with esByteQueue := raw }
  let lp := adtsParseLoop raw s2.sbrInMimetype s2.trackId (raw.length + 1) 0
    s2.ptsList s2.lastAudioDecoderConfig s2.audioTimestampHelper
  let s3 := { s2 with ptsList := lp.ptsList, lastAudioDecoderConfig := lp.config,
                      audioTimestampHelper := lp.helper }
  if lp.ok then ⟨discardEs s3 lp.pos, lp.events, true, lp.corrob⟩
  else ⟨s3, lp.events, false, lp.corrob⟩

/-- A sequence of `Parse` calls (buffer, optional pts), with the emissions of
every call concatenated in order. -/
def runEs (s : EsParserAdts) : List (List Nat × Option Int) → EsParserAdts × List EsEvent
  | [] => (s, [])
  | (buf, p) :: rest =>
    let r := s.parse buf p none
    let rr := runEs r.state rest
    (rr.1, r.events ++ rr.2)

def totalPushed (calls : List (List Nat × Option Int)) : Nat :=
  (calls.map (fun c => c.1.length)).sum

/-! ## WebM container walker (`webm_media_parser.cc`)

Element id constants from `webm_constants.h` (not among the sources).
Modelled from the spec: the standard EBML/WebM element ids; only their
pairwise distinctness matters to the walker's dispatch. -/

def kWebMIdEBMLHeader : Int := 0x1A45DFA3
def kWebMIdSeekHead : Int := 0x114D9B74
def kWebMIdVoid : Int := 0xEC
def kWebMIdCRC32 : Int := 0xBF
def kWebMIdCues : Int := 0x1C53BB6B
def kWebMIdChapters : Int := 0x1043A770
def kWebMIdTags : Int := 0x1254C367
def kWebMIdAttachments : Int := 0x1941A469
def kWebMIdCluster : Int := 0x1F43B675
def kWebMIdSegment : Int := 0x18538067
def kWebMIdInfo : Int := 0x1549A966
def kWebMUnknownSize : Int := 0xFFFFFFFFFFFFFF

/-- The walker states (`WebMMediaParser::State`). -/
inductive WebMState
  | waitingForInit
  | parsingHeaders
  | parsingClusters
  | error
deriving DecidableEq, Repr

/-- The mutable state of `WebMMediaParser`: current walker state, the byte
queue, the cluster sub-parser (present once info/tracks were parsed; its
internal state is abstracted to a `Nat`) and the unknown-segment-size flag. -/
structure WebMMediaParser where
  state : WebMState
  byteQueue : List Nat
  clusterParser : Option Nat
  unknownSegmentSize : Bool
deriving DecidableEq, Repr

def mkWebMMediaParser : WebMMediaParser :=
  ⟨.waitingForInit, [], none, false⟩

/-- Modelled from the spec: the sub-components the walker drives —
`WebMParseElementHeader` (returning consumed-count, element id and declared
element size), the info parser, the tracks parser and the stateful cluster
sub-parser (consumed-count, next internal state, cluster-ended flag).  The
walker's claims are proved for every possible behaviour of these
collaborators. -/
structure WebMEnv where
  parseElementHeader : List Nat → Int × Int × Int
  infoParse : List Nat → Int
  tracksParse : List Nat → Int
  clusterParse : Nat → List Nat → Int × Nat × Bool
  clusterFlush : Nat → Nat
  freshClusterParser : Nat

/-- A trivial environment (all sub-components report "need more data"),
used for concrete instances. -/
def trivialWebMEnv : WebMEnv :=
  ⟨fun _ => (0, 0, 0), fun _ => 0, fun _ => 0, fun c _ => (0, c, false), id, 0⟩

/-- The walker's observable emission: the init/configuration callback
(`init_cb_`) fired once info and tracks are parsed.  Sample emissions happen
inside the cluster sub-parser, outside the walker. -/
inductive WebMEvent
  | configReady
deriving DecidableEq, Repr

/-- `WebMMediaParser::ParseInfoAndTracks` (source lines 106-217): reads one
element header; skip-elements are discarded whole once fully buffered;
a cluster id before the cluster sub-parser exists is fatal, otherwise it
switches the state to cluster parsing without consuming; a segment id
consumes only its header (recording the unknown-size flag); an info id
triggers info then tracks parsing, fires the configuration callback and
constructs the cluster sub-parser; any other id is fatal. -/
def parseInfoAndTracks (env : WebMEnv) (s : WebMMediaParser) (data : List Nat) :
    Int × WebMMediaParser × List WebMEvent :=
  let hd := env.parseElementHeader data
  let result := hd.1
  let id := hd.2.1
  let elementSize := hd.2.2
  if result ≤ 0 then (result, s, [])
  else if id = kWebMIdEBMLHeader ∨ id = kWebMIdSeekHead ∨ id = kWebMIdVoid ∨
      id = kWebMIdCRC32 ∨ id = kWebMIdCues ∨ id = kWebMIdChapters ∨
      id = kWebMIdTags ∨ id = kWebMIdAttachments then
    if (data.length : Int) < result + elementSize then (0, s, [])
    else (result + elementSize, s, [])
  else if id = kWebMIdCluster then
    match s.clusterParser with
    | none => (-1, s, [])
    | some _ => (0, { s with state := .parsingClusters }, [])
  else if id = kWebMIdSegment then
    if elementSize = kWebMUnknownSize then (result, { s with unknownSegmentSize := true }, [])
    else (result, s, [])
  else if id = kWebMIdInfo then
    let r1 := env.infoParse data
    if r1 ≤ 0 then (r1, s, [])
    else
      let r2 := env.tracksParse (data.drop r1.toNat)
      if r2 ≤ 0 then (r2, s, [])
      else (r1 + r2, { s with clusterParser := some env.freshClusterParser },
        [WebMEvent.configReady])
  else (-1, s, [])

/-- `WebMMediaParser::ParseCluster` (source lines 219-233). -/
def parseCluster (env : WebMEnv) (s : WebMMediaParser) (data : List Nat) :
    Int × WebMMediaParser :=
  match s.clusterParser with
  | none => (-1, s)
  | some cp =>
    let r := env.clusterParse cp data
    let s1 := { s with clusterParser := some r.2.1 }
    if r.1 < 0 then (r.1, s1)
    else if r.2.2 then (r.1, { s1 with state := .parsingHeaders })
    else (r.1, s1)

structure WebMLoopOut where
  ok : Bool
  s : WebMMediaParser
  bytesParsed : Nat
  events : List WebMEvent
deriving Repr

/-- The consume loop of `WebMMediaParser::Parse` (source lines 66-95),
fuel-indexed; `webmParse` supplies fuel `queue length + 1`.  Each iteration
either consumes bytes or changes state; with the real sub-parsers the fuel
always suffices (an adversarial environment could ping-pong between states
without consuming, which the C++ loop would not terminate on either; fuel
exhaustion is mapped to a normal loop exit and is never reached in the claims
below, which leave the loop in its first iteration).  `ok = false` models the
`return false` paths inside the loop (no pop of the byte queue happens). -/
def webmParseLoop (env : WebMEnv) :
    Nat → WebMMediaParser → List Nat → Nat → WebMLoopOut
  | 0, s, _, bp => ⟨true, s, bp, []⟩
  | fuel + 1, s, cur, bp =>
    if cur.length = 0 then ⟨true, s, bp, []⟩
    else
      match s.state with
      | .waitingForInit => ⟨false, s, bp, []⟩
      | .error => ⟨false, s, bp, []⟩
      | .parsingHeaders =>
        let r := parseInfoAndTracks env s cur
        if r.1 < 0 then ⟨false, { r.2.1 with state := .error }, bp, r.2.2⟩
        else if r.2.1.state = s.state ∧ r.1 = 0 then ⟨true, r.2.1, bp, r.2.2⟩
        else
          let n := r.1.toNat
          let rest := webmParseLoop env fuel r.2.1 (cur.drop n) (bp + n)
          ⟨rest.ok, rest.s, rest.bytesParsed, r.2.2 ++ rest.events⟩
      | .parsingClusters =>
        let r := parseCluster env s cur
        if r.1 < 0 then ⟨false, { r.2 with state := .error }, bp, []⟩
        else if r.2.state = s.state ∧ r.1 = 0 then ⟨true, r.2, bp, []⟩
        else
          let n := r.1.toNat
          let rest := webmParseLoop env fuel r.2 (cur.drop n) (bp + n)
          ⟨rest.ok, rest.s, rest.bytesParsed, rest.events⟩

/-- `WebMMediaParser::Parse` (source lines 53-99).  In the `kError` state the
call fails before touching the byte queue.  Otherwise the input is pushed,
the consume loop runs over the queued bytes, and on normal loop exit the
consumed prefix is popped; on a `return false` inside the loop nothing is
popped.  (The entry `DCHECK_NE(state_, kWaitingForInit)` is a release no-op;
a call in that state pushes the bytes and then fails inside the loop.) -/
def webmParse (env : WebMEnv) (s : WebMMediaParser) (buf : List Nat) :
    Bool × WebMMediaParser × List WebMEvent :=
  if s.state = .error then (false, s, [])
  else
    let s1 := { s with byteQueue := s.byteQueue ++ buf }
    let r := webmParseLoop env (s1.byteQueue.length + 1) s1 s1.byteQueue 0
    if r.ok then
      (true, { r.s with byteQueue := r.s.byteQueue.drop r.bytesParsed }, r.events)
    else (false, r.s, r.events)

/-- `WebMMediaParser::Init` (source lines 27-40): moves the walker from
`kWaitingForInit` to `kParsingHeaders` and stores the callbacks. -/
def webmInit (s : WebMMediaParser) : WebMMediaParser :=
  { s with state := .parsingHeaders }

/-- `WebMMediaParser::Flush` (source lines 42-51): resets the byte queue,
flushes the cluster sub-parser, and drops back from `kParsingClusters` to
`kParsingHeaders`.  The walker state is otherwise unchanged. -/
def webmFlush (env : WebMEnv) (s : WebMMediaParser) : WebMMediaParser :=
  let s1 := { s with byteQueue := [] }
  let s2 :=
    match s1.clusterParser with
    | some cp => { s1 with clusterParser := some (env.clusterFlush cp) }
    | none => s1
  if s2.state = .parsingClusters then { s2 with state := .parsingHeaders } else s2

/-! ## Auxiliary definitions used by the theorem statements -/

/-- A valid 7-byte ADTS frame: sync word, frequency index 4 (44100 Hz),
channel configuration 1, declared frame size 7 (so the frame is exactly its
header). -/
def adtsFrameA : List Nat := [0xFF, 0xF0, 0x10, 0x40, 0x00, 0xE0, 0x00]

/-- A 7-byte ADTS frame candidate whose header carries the reserved frequency
index 13 (declared frame size 7, sync word intact). -/
def adtsFrameBadFreq : List Nat := [0xFF, 0xF0, 0x34, 0x40, 0x00, 0xE0, 0x00]

/-- Every pending-timestamp offset lies between `queue length − total bytes
ever pushed` and `queue length`. -/
def PtsOffsetsBounded (s : EsParserAdts) (pushed : Nat) : Prop :=
  ∀ e ∈ s.ptsList, (s.esByteQueue.length : Int) - pushed ≤ e.1 ∧
    e.1 ≤ (s.esByteQueue.length : Int)

/-- The pending-timestamp offsets are weakly increasing in arrival order. -/
def PtsOffsetsSorted (l : List (Int × Int)) : Prop :=
  l.Pairwise (fun a b => a.1 ≤ b.1)

/-- The value of the most recent pending timestamp applying at or before
offset `p` (the one the source's pop loop leaves as the base timestamp). -/
def lastAppliedPts (l : List (Int × Int)) (p : Int) : Option Int :=
  (l.filter (fun e => decide (e.1 ≤ p))).foldl (fun _ e => some e.2) none

/-- The pending-timestamp list right after the recording step of `Parse`
(source lines 120-123). -/
def recordedPtsList (s : EsParserAdts) (pts : Option Int) : List (Int × Int) :=
  match pts with
  | some p => s.ptsList ++ [((s.esByteQueue.length : Int), p)]
  | none => s.ptsList

/-- The frame loop run performed by `Parse` on the queue extended with the
new input. -/
def parseLoopOf (s : EsParserAdts) (buf : List Nat) (pts : Option Int) : AdtsLoopOut :=
  adtsParseLoop (s.esByteQueue ++ buf) s.sbrInMimetype s.trackId
    ((s.esByteQueue ++ buf).length + 1) 0 (recordedPtsList s pts)
    s.lastAudioDecoderConfig s.audioTimestampHelper

/-- The frame-loop run performed by the follow-up `Parse` call after a run
`L` of the loop over prefix `a` ended: the unconsumed suffix of `a` plus the
new bytes `b`, scanned from 0, with the pending offsets shifted by the
discarded byte count. -/
def continuationLoop (a b : List Nat) (sbr : Bool) (tid : Nat) (L : AdtsLoopOut) :
    AdtsLoopOut :=
  adtsParseLoop (a.drop L.pos ++ b) sbr tid ((a.drop L.pos ++ b).length + 1) 0
    (L.ptsList.map (fun e => (e.1 - (L.pos : Int), e.2))) L.config L.helper

/-- Simulation relation between a parser and its re-fed twin after a
`Reset`: either the two states are equal, or no configuration is established
on either side, everything but the timestamp helper agrees, and the earliest
pending timestamp applies at or before offset 0 (so the first emitted frame
will rebase both helpers to a common value). -/
def ResetSim (s t : EsParserAdts) : Prop :=
  s = t ∨
  (s.trackId = t.trackId ∧ s.sbrInMimetype = t.sbrInMimetype ∧
   s.esByteQueue = t.esByteQueue ∧ s.ptsList = t.ptsList ∧
   s.lastAudioDecoderConfig = none ∧ t.lastAudioDecoderConfig = none ∧
   ∃ e r', s.ptsList = e :: r' ∧ e.1 ≤ 0)

/-! ## Theorems -/

/-! ### Characterization of the sync-word search -/

theorem candAccept_min_frameSz {raw : List Nat} {o : Nat} (h : candAccept raw o = true) :
    kAdtsHeaderMinSize ≤ extractAdtsFrameSize raw o := by
  simp only [candAccept, Bool.and_assoc, Bool.and_eq_true, decide_eq_true_eq] at h
  exact h.2.1

theorem lookLoop_found (raw : List Nat) :
    ∀ fuel off, (lookLoop raw fuel off).found = true →
      off ≤ (lookLoop raw fuel off).newPos ∧
      (lookLoop raw fuel off).newPos + kAdtsHeaderMinSize < raw.length ∧
      candAccept raw (lookLoop raw fuel off).newPos = true ∧
      (lookLoop raw fuel off).frameSz =
        extractAdtsFrameSize raw (lookLoop raw fuel off).newPos ∧
      ∀ o, off ≤ o → o < (lookLoop raw fuel off).newPos → candAccept raw o = false := by
  intro fuel
  induction fuel with
  | zero => intro off h; simp [lookLoop] at h
  | succ n ih =>
    intro off h
    by_cases h1 : off + kAdtsHeaderMinSize < raw.length
    · by_cases h2 : candAccept raw off = true
      · simp only [lookLoop, if_pos h1, if_pos h2]
        refine ⟨le_refl _, h1, h2, by trivial, ?_⟩
        intro o ho1 ho2; omega
      · have hrw : lookLoop raw (n + 1) off = lookLoop raw n (off + 1) := by
          simp [lookLoop, h1, h2]
        rw [hrw] at h ⊢
        obtain ⟨ha, hb, hc, hd, he⟩ := ih (off + 1) h
        refine ⟨by omega, hb, hc, hd, ?_⟩
        intro o ho1 ho2
        rcases Nat.eq_or_lt_of_le ho1 with rfl | hlt
        · simpa using h2
        · exact he o hlt ho2
    · simp [lookLoop, h1] at h

theorem lookLoop_notfound (raw : List Nat) :
    ∀ fuel off, raw.length ≤ off + fuel → (lookLoop raw fuel off).found = false →
      (lookLoop raw fuel off).newPos = raw.length - kAdtsHeaderMinSize ∧
      (lookLoop raw fuel off).frameSz = 0 ∧
      ∀ o, off ≤ o → o + kAdtsHeaderMinSize < raw.length → candAccept raw o = false := by
  intro fuel
  induction fuel with
  | zero =>
    intro off hf _
    refine ⟨rfl, rfl, ?_⟩
    intro o ho1 ho2
    exfalso; omega
  | succ n ih =>
    intro off hf h
    by_cases h1 : off + kAdtsHeaderMinSize < raw.length
    · by_cases h2 : candAccept raw off = true
      · simp [lookLoop, h1, h2] at h
      · have hrw : lookLoop raw (n + 1) off = lookLoop raw n (off + 1) := by
          simp [lookLoop, h1, h2]
        rw [hrw] at h ⊢
        obtain ⟨ha, hb, hc⟩ := ih (off + 1) (by omega) h
        refine ⟨ha, hb, ?_⟩
        intro o ho1 ho2
        rcases Nat.eq_or_lt_of_le ho1 with rfl | hlt
        · simpa using h2
        · exact hc o hlt ho2
    · simp only [lookLoop, if_neg h1]
      refine ⟨by trivial, by trivial, ?_⟩
      intro o ho1 ho2
      exfalso; omega

theorem lookForSyncWord_found {raw : List Nat} {pos : Nat}
    (h : (lookForSyncWord raw pos).found = true) :
    pos ≤ (lookForSyncWord raw pos).newPos ∧
    (lookForSyncWord raw pos).newPos + kAdtsHeaderMinSize < raw.length ∧
    candAccept raw (lookForSyncWord raw pos).newPos = true ∧
    (lookForSyncWord raw pos).frameSz =
      extractAdtsFrameSize raw (lookForSyncWord raw pos).newPos ∧
    ∀ o, pos ≤ o → o < (lookForSyncWord raw pos).newPos → candAccept raw o = false := by
  by_cases hg : raw.length ≤ pos + kAdtsHeaderMinSize
  · simp [lookForSyncWord, hg] at h
  · simp only [lookForSyncWord, if_neg hg] at h ⊢
    exact lookLoop_found raw raw.length pos h

theorem lookForSyncWord_notfound {raw : List Nat} {pos : Nat}
    (h : (lookForSyncWord raw pos).found = false) :
    (lookForSyncWord raw pos).newPos =
      (if raw.length ≤ pos + kAdtsHeaderMinSize then pos
       else raw.length - kAdtsHeaderMinSize) ∧
    (lookForSyncWord raw pos).frameSz = 0 ∧
    ∀ o, pos ≤ o → o + kAdtsHeaderMinSize < raw.length → candAccept raw o = false := by
  by_cases hg : raw.length ≤ pos + kAdtsHeaderMinSize
  · simp only [lookForSyncWord, if_pos hg]
    refine ⟨by trivial, by trivial, ?_⟩
    intro o ho1 ho2
    exfalso; omega
  · simp only [lookForSyncWord, if_neg hg] at h ⊢
    obtain ⟨ha, hb, hc⟩ := lookLoop_notfound raw raw.length pos (Nat.le_add_left _ _) h
    exact ⟨ha, hb, hc⟩

theorem lookForSyncWord_ge {raw : List Nat} {pos : Nat} :
    pos ≤ (lookForSyncWord raw pos).newPos := by
  cases hf : (lookForSyncWord raw pos).found
  · obtain ⟨ha, _, _⟩ := lookForSyncWord_notfound hf
    rw [ha]
    split <;> omega
  · exact (lookForSyncWord_found hf).1

theorem lookForSyncWord_le {raw : List Nat} {pos : Nat} (h : pos ≤ raw.length) :
    (lookForSyncWord raw pos).newPos ≤ raw.length := by
  cases hf : (lookForSyncWord raw pos).found
  · obtain ⟨ha, _, _⟩ := lookForSyncWord_notfound hf
    rw [ha]
    split <;> omega
  · have := (lookForSyncWord_found hf).2.1
    omega

theorem lookLoop_congr (raw : List Nat) :
    ∀ f1 f2 off, raw.length ≤ off + f1 → raw.length ≤ off + f2 →
      lookLoop raw f1 off = lookLoop raw f2 off := by
  intro f1
  induction f1 with
  | zero =>
    intro f2 off h1 _
    cases f2 with
    | zero => rfl
    | succ m =>
      have hno : ¬ off + kAdtsHeaderMinSize < raw.length := by omega
      simp [lookLoop, hno]
  | succ n ih =>
    intro f2 off h1 h2
    cases f2 with
    | zero =>
      have hno : ¬ off + kAdtsHeaderMinSize < raw.length := by omega
      simp [lookLoop, hno]
    | succ m =>
      by_cases hg : off + kAdtsHeaderMinSize < raw.length
      · by_cases hc : candAccept raw off = true
        · simp [lookLoop, hg, hc]
        · simp only [lookLoop, if_pos hg, if_neg hc]
          exact ih m (off + 1) (by omega) (by omega)
      · simp [lookLoop, hg]

theorem lookForSyncWord_step {raw : List Nat} {pos : Nat}
    (h1 : pos + kAdtsHeaderMinSize < raw.length) (h2 : candAccept raw pos = false) :
    lookForSyncWord raw pos = lookForSyncWord raw (pos + 1) := by
  have hg : ¬ raw.length ≤ pos + kAdtsHeaderMinSize := by omega
  have hlen : 0 < raw.length := by omega
  obtain ⟨m, hm⟩ : ∃ m, raw.length = m + 1 := ⟨raw.length - 1, by omega⟩
  by_cases hg2 : raw.length ≤ pos + 1 + kAdtsHeaderMinSize
  · -- the next position exits the scan range; both sides report "not found"
    -- at max_offset = raw.length - kAdtsHeaderMinSize = pos + 1
    have hstep : lookLoop raw raw.length pos = lookLoop raw m (pos + 1) := by
      rw [hm]; simp [lookLoop, h1, h2]
    have hexit : lookLoop raw m (pos + 1) = ⟨false, raw.length - kAdtsHeaderMinSize, 0⟩ := by
      have hno : ¬ pos + 1 + kAdtsHeaderMinSize < raw.length := by omega
      cases m with
      | zero => rfl
      | succ mm => simp [lookLoop, hno]
    have hval : raw.length - kAdtsHeaderMinSize = pos + 1 := by omega
    simp only [lookForSyncWord, if_neg hg, if_pos hg2, hstep, hexit, hval]
  · have hstep : lookLoop raw raw.length pos = lookLoop raw m (pos + 1) := by
      rw [hm]; simp [lookLoop, h1, h2]
    have hcongr : lookLoop raw m (pos + 1) = lookLoop raw raw.length (pos + 1) :=
      lookLoop_congr raw m raw.length (pos + 1) (by omega) (by omega)
    simp only [lookForSyncWord, if_neg hg, if_neg hg2, hstep, hcongr]

theorem lookForSyncWord_skip {raw : List Nat} :
    ∀ d pos q, q - pos = d → pos ≤ q → q + kAdtsHeaderMinSize ≤ raw.length →
      (∀ o, pos ≤ o → o < q → candAccept raw o = false) →
      lookForSyncWord raw pos = lookForSyncWord raw q := by
  intro d
  induction d with
  | zero =>
    intro pos q hd hle _ _
    have : pos = q := by omega
    rw [this]
  | succ n ih =>
    intro pos q hd hle hq hrej
    have hlt : pos < q := by omega
    have h1 : pos + kAdtsHeaderMinSize < raw.length := by omega
    have h2 : candAccept raw pos = false := hrej pos (le_refl _) hlt
    rw [lookForSyncWord_step h1 h2]
    exact ih (pos + 1) q (by omega) (by omega) hq
      (fun o ho1 ho2 => hrej o (by omega) ho2)

theorem lookForSyncWord_eq_found {raw : List Nat} {pos np : Nat}
    (h1 : pos ≤ np) (h2 : np + kAdtsHeaderMinSize < raw.length)
    (h3 : candAccept raw np = true)
    (h4 : ∀ o, pos ≤ o → o < np → candAccept raw o = false) :
    lookForSyncWord raw pos = ⟨true, np, extractAdtsFrameSize raw np⟩ := by
  rw [lookForSyncWord_skip (np - pos) pos np rfl h1 (by omega) h4]
  have hg : ¬ raw.length ≤ np + kAdtsHeaderMinSize := by omega
  obtain ⟨m, hm⟩ : ∃ m, raw.length = m + 1 := ⟨raw.length - 1, by omega⟩
  simp only [lookForSyncWord, if_neg hg]
  rw [hm]
  simp [lookLoop, h3, h2]

theorem lookForSyncWord_eq_notfound {raw : List Nat} {pos : Nat}
    (h : ∀ o, pos ≤ o → o + kAdtsHeaderMinSize < raw.length → candAccept raw o = false) :
    lookForSyncWord raw pos =
      ⟨false, if raw.length ≤ pos + kAdtsHeaderMinSize then pos
              else raw.length - kAdtsHeaderMinSize, 0⟩ := by
  cases hf : (lookForSyncWord raw pos).found
  · obtain ⟨ha, hb, _⟩ := lookForSyncWord_notfound hf
    cases hres : lookForSyncWord raw pos
    rw [hres] at hf ha hb
    simp only at hf ha hb
    rw [hf, ha, hb]
  · obtain ⟨ha, hb, hc, _, _⟩ := lookForSyncWord_found hf
    exact absurd hc (by simp [h _ ha (by omega)])

/-- C4 (amended): the frame-boundary search examines exactly the candidate
offsets `o` with `pos ≤ o` and `o + minHeaderSize < bufferSize` — a strict
bound, so the final offset `bufferSize − minHeaderSize` is never examined and
a buffer of exactly `minHeaderSize` bytes always reports "no frame found" with
the position unchanged.  When no candidate in that range is accepted the scan
reports the boundary reached (`pos` itself if `pos ≥ bufferSize −
minHeaderSize`, else `bufferSize − minHeaderSize`); when a frame is found, its
offset is the least accepted candidate in the range, and the reported size is
the declared frame size at that offset. -/
theorem adts_syncscan_characterization (raw : List Nat) (pos : Nat) :
    ((lookForSyncWord raw pos).found = false →
      (∀ o, pos ≤ o → o + kAdtsHeaderMinSize < raw.length → candAccept raw o = false) ∧
      (lookForSyncWord raw pos).newPos =
        (if raw.length ≤ pos + kAdtsHeaderMinSize then pos
         else raw.length - kAdtsHeaderMinSize)) ∧
    ((lookForSyncWord raw pos).found = true →
      pos ≤ (lookForSyncWord raw pos).newPos ∧
      (lookForSyncWord raw pos).newPos + kAdtsHeaderMinSize < raw.length ∧
      candAccept raw (lookForSyncWord raw pos).newPos = true ∧
      (lookForSyncWord raw pos).frameSz =
        extractAdtsFrameSize raw (lookForSyncWord raw pos).newPos ∧
      ∀ o, pos ≤ o → o < (lookForSyncWord raw pos).newPos → candAccept raw o = false) := by
  constructor
  · intro hf
    obtain ⟨ha, _, hc⟩ := lookForSyncWord_notfound hf
    exact ⟨hc, ha⟩
  · intro hf
    exact lookForSyncWord_found hf

theorem adts_syncscan_characterization_witness :
    candAccept (adtsFrameA ++ [0]) 0 = true ∧
    (lookForSyncWord adtsFrameA 0).newPos = 0 := by
  refine ⟨((adts_syncscan_characterization (adtsFrameA ++ [0]) 0).2 (by decide)).2.2.1, ?_⟩
  have h := ((adts_syncscan_characterization adtsFrameA 0).1 (by decide)).2
  simpa using h

/-! ### Configuration epoch lemmas -/

theorem countConfigReady_append (a b : List EsEvent) :
    countConfigReady (a ++ b) = countConfigReady a + countConfigReady b := by
  simp [countConfigReady, List.filter_append]

theorem countConfigReady_sample (payload : List Nat) (p d du : Int) (k : Bool)
    (l : List EsEvent) :
    countConfigReady (EsEvent.sampleReady payload p d du k :: l) = countConfigReady l := by
  simp [countConfigReady, isConfigReady]

theorem countConfigReady_config (c : AudioStreamInfo) (l : List EsEvent) :
    countConfigReady (EsEvent.configReady c :: l) = countConfigReady l + 1 := by
  simp [countConfigReady, isConfigReady, Nat.add_comm]

theorem updateAudioConfiguration_config_some (sbr : Bool) (tid : Nat)
    (c : AudioStreamInfo) (helper : Option AudioTimestampHelper)
    (raw : List Nat) (off : Nat) :
    updateAudioConfiguration sbr tid (some c) helper raw off =
      some (c, helper.getD (mkAudioTimestampHelper kMpeg2Timescale c.samplingFrequency),
        []) := rfl

theorem updateAudioConfiguration_none_iff (sbr : Bool) (tid : Nat)
    (helper : Option AudioTimestampHelper) (raw : List Nat) (off : Nat) :
    updateAudioConfiguration sbr tid none helper raw off = none ↔
      validHeaderConfig raw off = false := by
  by_cases h1 : kAdtsFrequencyTableSize ≤ extractAdtsFrequencyIndex raw off
  · simp [updateAudioConfiguration, validHeaderConfig, h1, Nat.not_lt.mpr h1]
  · by_cases h2 : extractAdtsChannelConfig raw off = 0 ∨
        kAdtsNumChannelsTableSize ≤ extractAdtsChannelConfig raw off
    · rcases h2 with h2 | h2
      · simp [updateAudioConfiguration, validHeaderConfig, h1, h2]
      · simp [updateAudioConfiguration, validHeaderConfig, h1, h2, Nat.not_lt.mpr h2]
    · push_neg at h2
      simp [updateAudioConfiguration, validHeaderConfig, h1, h2.1, h2.2,
        Nat.lt_of_not_le h1, not_or]

/-- With an established configuration the frame loop never fails, never
changes the configuration and never fires the configuration callback. -/
theorem adtsParseLoop_config_some (raw : List Nat) (sbr : Bool) (tid : Nat) :
    ∀ fuel pos pl (c : AudioStreamInfo) h,
      (adtsParseLoop raw sbr tid fuel pos pl (some c) h).ok = true ∧
      (adtsParseLoop raw sbr tid fuel pos pl (some c) h).config = some c ∧
      countConfigReady (adtsParseLoop raw sbr tid fuel pos pl (some c) h).events = 0 := by
  intro fuel
  induction fuel with
  | zero => intro pos pl c h; simp [adtsParseLoop, countConfigReady]
  | succ n ih =>
    intro pos pl c h
    simp only [adtsParseLoop]
    by_cases hf : (lookForSyncWord raw pos).found
    · simp only [hf, if_true]
      by_cases hc : (lookForSyncWord raw pos).newPos +
          (lookForSyncWord raw pos).frameSz ≤ raw.length
      · simp only [if_pos hc, updateAudioConfiguration_config_some]
        obtain ⟨ha, hb, hcnt⟩ := ih ((lookForSyncWord raw pos).newPos +
          (lookForSyncWord raw pos).frameSz)
          (popApplyPts pl (h.getD (mkAudioTimestampHelper kMpeg2Timescale
            c.samplingFrequency)) ((lookForSyncWord raw pos).newPos : Int)).1
          c (some ((popApplyPts pl (h.getD (mkAudioTimestampHelper kMpeg2Timescale
            c.samplingFrequency)) ((lookForSyncWord raw pos).newPos : Int)).2.addFrames
            kSamplesPerAACFrame))
        refine ⟨ha, hb, ?_⟩
        simpa [countConfigReady_sample] using hcnt
      · simp [hc, countConfigReady]
    · simp [hf, countConfigReady]

/-- With no established configuration the frame loop fires the configuration
callback at most once, and if it still has no configuration afterwards it has
emitted nothing and touched neither the timestamp list nor the helper. -/
theorem adtsParseLoop_config_none (raw : List Nat) (sbr : Bool) (tid : Nat) :
    ∀ fuel pos pl h,
      countConfigReady (adtsParseLoop raw sbr tid fuel pos pl none h).events ≤ 1 ∧
      ((adtsParseLoop raw sbr tid fuel pos pl none h).config = none →
        (adtsParseLoop raw sbr tid fuel pos pl none h).events = [] ∧
        (adtsParseLoop raw sbr tid fuel pos pl none h).ptsList = pl ∧
        (adtsParseLoop raw sbr tid fuel pos pl none h).helper = h) := by
  intro fuel
  induction fuel with
  | zero => intro pos pl h; simp [adtsParseLoop, countConfigReady]
  | succ n _ =>
    intro pos pl h
    simp only [adtsParseLoop]
    by_cases hf : (lookForSyncWord raw pos).found
    · simp only [hf, if_true]
      by_cases hc : (lookForSyncWord raw pos).newPos +
          (lookForSyncWord raw pos).frameSz ≤ raw.length
      · simp only [if_pos hc]
        cases hu : updateAudioConfiguration sbr tid none h raw
            (lookForSyncWord raw pos).newPos with
        | none => simp [countConfigReady]
        | some r =>
          obtain ⟨c, h1, cfgEvents⟩ := r
          -- a fresh configuration: the callback list is exactly one event
          have hev : cfgEvents = [EsEvent.configReady c] := by
            by_cases h1' : kAdtsFrequencyTableSize ≤
                extractAdtsFrequencyIndex raw (lookForSyncWord raw pos).newPos
            · simp [updateAudioConfiguration, h1'] at hu
            · by_cases h2' : extractAdtsChannelConfig raw (lookForSyncWord raw pos).newPos = 0 ∨
                  kAdtsNumChannelsTableSize ≤
                    extractAdtsChannelConfig raw (lookForSyncWord raw pos).newPos
              · simp [updateAudioConfiguration, h1', h2'] at hu
              · simp only [updateAudioConfiguration, if_neg h1', if_neg h2'] at hu
                rw [Option.some_inj] at hu
                have h3 := congrArg (fun x => x.2.2) hu
                have h4 := congrArg (fun x => x.1) hu
                simp only at h3 h4
                rw [← h3, h4]
          obtain ⟨ha, hb, hcnt⟩ := adtsParseLoop_config_some raw sbr tid n
            ((lookForSyncWord raw pos).newPos + (lookForSyncWord raw pos).frameSz)
            (popApplyPts pl h1 ((lookForSyncWord raw pos).newPos : Int)).1 c
            (some ((popApplyPts pl h1
              ((lookForSyncWord raw pos).newPos : Int)).2.addFrames kSamplesPerAACFrame))
          constructor
          · rw [hev]
            simp [countConfigReady_append, countConfigReady_config,
              countConfigReady_sample, hcnt]
          · intro hcfg
            simp only at hcfg
            rw [hb] at hcfg
            exact absurd hcfg (by simp)
      · simp [hc, countConfigReady]
    · simp [hf, countConfigReady]

theorem discardEs_config (s : EsParserAdts) (n : Nat) :
    (discardEs s n).lastAudioDecoderConfig = s.lastAudioDecoderConfig := by
  unfold discardEs; split <;> rfl

theorem discardEs_helper (s : EsParserAdts) (n : Nat) :
    (discardEs s n).audioTimestampHelper = s.audioTimestampHelper := by
  unfold discardEs; split <;> rfl

theorem discardEs_track (s : EsParserAdts) (n : Nat) :
    (discardEs s n).trackId = s.trackId ∧ (discardEs s n).sbrInMimetype = s.sbrInMimetype := by
  unfold discardEs; split <;> exact ⟨rfl, rfl⟩

/-- `Parse` decomposed into its recording step, its frame-loop run and the
discard/failure epilogue. -/
theorem parse_eq (s : EsParserAdts) (buf : List Nat) (pts dts : Option Int) :
    s.parse buf pts dts =
      (let lp := parseLoopOf s buf pts
       let s3 : EsParserAdts := ⟨s.trackId, s.sbrInMimetype, s.esByteQueue ++ buf,
         lp.ptsList, lp.config, lp.helper⟩
       if lp.ok then ⟨discardEs s3 lp.pos, lp.events, true, lp.corrob⟩
       else ⟨s3, lp.events, false, lp.corrob⟩) := by
  cases pts <;> rfl

theorem parse_ok_eq (s : EsParserAdts) (buf : List Nat) (pts dts : Option Int) :
    (s.parse buf pts dts).ok = (parseLoopOf s buf pts).ok := by
  rw [parse_eq]
  by_cases h : (parseLoopOf s buf pts).ok <;> simp [h]

theorem parse_events_eq (s : EsParserAdts) (buf : List Nat) (pts dts : Option Int) :
    (s.parse buf pts dts).events = (parseLoopOf s buf pts).events := by
  rw [parse_eq]
  by_cases h : (parseLoopOf s buf pts).ok <;> simp [h]

theorem parse_config_eq (s : EsParserAdts) (buf : List Nat) (pts dts : Option Int) :
    (s.parse buf pts dts).state.lastAudioDecoderConfig = (parseLoopOf s buf pts).config := by
  rw [parse_eq]
  by_cases h : (parseLoopOf s buf pts).ok <;> simp [h, discardEs_config]

theorem parse_helper_eq (s : EsParserAdts) (buf : List Nat) (pts dts : Option Int) :
    (s.parse buf pts dts).state.audioTimestampHelper = (parseLoopOf s buf pts).helper := by
  rw [parse_eq]
  by_cases h : (parseLoopOf s buf pts).ok <;> simp [h, discardEs_helper]

theorem parse_state_fail (s : EsParserAdts) (buf : List Nat) (pts dts : Option Int)
    (h : (parseLoopOf s buf pts).ok = false) :
    (s.parse buf pts dts).state = ⟨s.trackId, s.sbrInMimetype, s.esByteQueue ++ buf,
      (parseLoopOf s buf pts).ptsList, (parseLoopOf s buf pts).config,
      (parseLoopOf s buf pts).helper⟩ := by
  rw [parse_eq]
  simp [h]

/-- Per-call configuration stability: once established, a configuration is
never changed and never re-announced, and the call succeeds. -/
theorem parse_config_some {s : EsParserAdts} {buf : List Nat} {pts dts : Option Int}
    {c : AudioStreamInfo} (h : s.lastAudioDecoderConfig = some c) :
    (s.parse buf pts dts).ok = true ∧
    (s.parse buf pts dts).state.lastAudioDecoderConfig = some c ∧
    countConfigReady (s.parse buf pts dts).events = 0 := by
  obtain ⟨ha, hb, hc⟩ := adtsParseLoop_config_some (s.esByteQueue ++ buf) s.sbrInMimetype
    s.trackId ((s.esByteQueue ++ buf).length + 1) 0 (recordedPtsList s pts) c
    s.audioTimestampHelper
  have hlp : parseLoopOf s buf pts = adtsParseLoop (s.esByteQueue ++ buf) s.sbrInMimetype
      s.trackId ((s.esByteQueue ++ buf).length + 1) 0 (recordedPtsList s pts) (some c)
      s.audioTimestampHelper := by
    rw [parseLoopOf, h]
  rw [parse_ok_eq _ _ _ dts, parse_config_eq _ _ _ dts, parse_events_eq _ _ _ dts, hlp]
  exact ⟨ha, hb, hc⟩

theorem parse_config_none_count {s : EsParserAdts} {buf : List Nat} {pts dts : Option Int}
    (h : s.lastAudioDecoderConfig = none) :
    countConfigReady (s.parse buf pts dts).events ≤ 1 ∧
    ((s.parse buf pts dts).state.lastAudioDecoderConfig = none →
      countConfigReady (s.parse buf pts dts).events = 0) := by
  obtain ⟨ha, hb⟩ := adtsParseLoop_config_none (s.esByteQueue ++ buf) s.sbrInMimetype
    s.trackId ((s.esByteQueue ++ buf).length + 1) 0 (recordedPtsList s pts)
    s.audioTimestampHelper
  have hlp : parseLoopOf s buf pts = adtsParseLoop (s.esByteQueue ++ buf) s.sbrInMimetype
      s.trackId ((s.esByteQueue ++ buf).length + 1) 0 (recordedPtsList s pts) none
      s.audioTimestampHelper := by
    rw [parseLoopOf, h]
  rw [parse_config_eq _ _ _ dts, parse_events_eq _ _ _ dts, hlp]
  refine ⟨ha, fun hnone => ?_⟩
  rw [(hb hnone).1]
  rfl

theorem runEs_count_some : ∀ (calls : List (List Nat × Option Int)) (s : EsParserAdts)
    (c : AudioStreamInfo), s.lastAudioDecoderConfig = some c →
    countConfigReady (runEs s calls).2 = 0 ∧
    (runEs s calls).1.lastAudioDecoderConfig = some c := by
  intro calls
  induction calls with
  | nil => intro s c h; exact ⟨rfl, h⟩
  | cons call rest ih =>
    intro s c h
    obtain ⟨buf, p⟩ := call
    obtain ⟨ha, hb, hc⟩ := @parse_config_some s buf p none c h
    obtain ⟨hd, he⟩ := ih (s.parse buf p none).state c hb
    refine ⟨?_, he⟩
    simp only [runEs, countConfigReady_append, hc, hd]

theorem runEs_count_le : ∀ (calls : List (List Nat × Option Int)) (s : EsParserAdts),
    s.lastAudioDecoderConfig = none → countConfigReady (runEs s calls).2 ≤ 1 := by
  intro calls
  induction calls with
  | nil => intro s _; simp [runEs, countConfigReady]
  | cons call rest ih =>
    intro s h
    obtain ⟨buf, p⟩ := call
    obtain ⟨ha, hb⟩ := @parse_config_none_count s buf p none h
    simp only [runEs, countConfigReady_append]
    cases hc : (s.parse buf p none).state.lastAudioDecoderConfig with
    | none =>
      have := ih (s.parse buf p none).state hc
      have h0 := hb hc
      omega
    | some c =>
      have := (runEs_count_some rest (s.parse buf p none).state c hc).1
      omega

/-- C9: at most one configuration per epoch.  (1) Over any sequence of
`Parse` calls from a fresh parser the configuration-ready callback fires at
most once.  (2) Once a configuration is established, any later `Parse` call —
whatever its bytes, including frames whose headers carry a reserved frequency
index or an invalid channel configuration — succeeds, leaves the
configuration unchanged, and never re-fires the configuration callback. -/
theorem adts_config_at_most_once :
    (∀ (tid : Nat) (sbr : Bool) (calls : List (List Nat × Option Int)),
      countConfigReady (runEs (mkEsParserAdts tid sbr) calls).2 ≤ 1) ∧
    (∀ (s : EsParserAdts) (buf : List Nat) (pts dts : Option Int) (c : AudioStreamInfo),
      s.lastAudioDecoderConfig = some c →
      (s.parse buf pts dts).ok = true ∧
      (s.parse buf pts dts).state.lastAudioDecoderConfig = some c ∧
      countConfigReady (s.parse buf pts dts).events = 0) := by
  constructor
  · intro tid sbr calls
    exact runEs_count_le calls (mkEsParserAdts tid sbr) rfl
  · intro s buf pts dts c h
    exact parse_config_some h

/-- C9 witness: a fresh parser fed two frames with a reserved-frequency-index
header after a valid configuration frame; the established configuration is
retained, the call succeeds and fires nothing. -/
theorem adts_config_at_most_once_witness :
    countConfigReady (runEs (mkEsParserAdts 1 false)
      [(adtsFrameA ++ adtsFrameA, some 0), (adtsFrameBadFreq ++ adtsFrameBadFreq, none)]).2
      ≤ 1 ∧
    (((runEs (mkEsParserAdts 1 false) [(adtsFrameA ++ adtsFrameA, some 0)]).1.parse
      (adtsFrameBadFreq ++ adtsFrameBadFreq) none none).ok = true ∧
     ((runEs (mkEsParserAdts 1 false) [(adtsFrameA ++ adtsFrameA, some 0)]).1.parse
      (adtsFrameBadFreq ++ adtsFrameBadFreq) none none).state.lastAudioDecoderConfig =
        some ⟨1, 90000, kInfiniteDuration, kCodecAAC, 16, 1, 44100⟩ ∧
     countConfigReady (((runEs (mkEsParserAdts 1 false)
      [(adtsFrameA ++ adtsFrameA, some 0)]).1.parse
      (adtsFrameBadFreq ++ adtsFrameBadFreq) none none).events) = 0) :=
  ⟨adts_config_at_most_once.1 1 false
    [(adtsFrameA ++ adtsFrameA, some 0), (adtsFrameBadFreq ++ adtsFrameBadFreq, none)],
   adts_config_at_most_once.2 (runEs (mkEsParserAdts 1 false)
      [(adtsFrameA ++ adtsFrameA, some 0)]).1 (adtsFrameBadFreq ++ adtsFrameBadFreq)
      none none ⟨1, 90000, kInfiniteDuration, kCodecAAC, 16, 1, 44100⟩ (by decide)⟩

/-- With no established configuration, the frame loop fails exactly when the
first accepted sync candidate is a complete frame whose header fails
configuration validation; on failure nothing was emitted or modified and the
scan position is that frame's offset. -/
theorem adtsParseLoop_fail_iff (raw : List Nat) (sbr : Bool) (tid : Nat)
    (n pos : Nat) (pl : List (Int × Int)) (h : Option AudioTimestampHelper) :
    ((adtsParseLoop raw sbr tid (n + 1) pos pl none h).ok = false ↔
      ((lookForSyncWord raw pos).found = true ∧
       (lookForSyncWord raw pos).newPos + (lookForSyncWord raw pos).frameSz ≤ raw.length ∧
       validHeaderConfig raw (lookForSyncWord raw pos).newPos = false)) ∧
    ((adtsParseLoop raw sbr tid (n + 1) pos pl none h).ok = false →
      (adtsParseLoop raw sbr tid (n + 1) pos pl none h).events = [] ∧
      (adtsParseLoop raw sbr tid (n + 1) pos pl none h).ptsList = pl ∧
      (adtsParseLoop raw sbr tid (n + 1) pos pl none h).config = none ∧
      (adtsParseLoop raw sbr tid (n + 1) pos pl none h).helper = h ∧
      (adtsParseLoop raw sbr tid (n + 1) pos pl none h).pos =
        (lookForSyncWord raw pos).newPos) := by
  by_cases hf : (lookForSyncWord raw pos).found
  · by_cases hc : (lookForSyncWord raw pos).newPos +
        (lookForSyncWord raw pos).frameSz ≤ raw.length
    · cases hu : updateAudioConfiguration sbr tid none h raw (lookForSyncWord raw pos).newPos
        with
      | none =>
        have hval : validHeaderConfig raw (lookForSyncWord raw pos).newPos = false :=
          (updateAudioConfiguration_none_iff sbr tid h raw _).mp hu
        simp [adtsParseLoop, hf, hc, hu, hval]
      | some r =>
        have hok := (adtsParseLoop_config_some raw sbr tid n
          ((lookForSyncWord raw pos).newPos + (lookForSyncWord raw pos).frameSz)
          (popApplyPts pl r.2.1 ((lookForSyncWord raw pos).newPos : Int)).1 r.1
          (some ((popApplyPts pl r.2.1
            ((lookForSyncWord raw pos).newPos : Int)).2.addFrames kSamplesPerAACFrame))).1
        have hval : ¬ validHeaderConfig raw (lookForSyncWord raw pos).newPos = false := by
          intro hv
          rw [← updateAudioConfiguration_none_iff sbr tid h raw _] at hv
          rw [hv] at hu
          exact Option.noConfusion hu
        simp only [adtsParseLoop, hf, if_true, if_pos hc, hu]
        simp [hok, hval]
    · simp [adtsParseLoop, hf, hc]
  · simp [adtsParseLoop, hf]

/-- C10: the sole failure mode of the ES parser's `Parse`.  A call fails iff
no configuration is yet established and the frame loop's first accepted sync
candidate is a complete frame whose header fails configuration validation
(frequency index outside the table, or channel configuration zero or outside
the table); every other input succeeds.  On a failing call nothing is emitted,
no bytes are discarded (the new input remains appended to the queue), the
pending timestamps recorded in the call remain, and configuration and helper
are untouched. -/
theorem adts_parse_failure_characterization (s : EsParserAdts) (buf : List Nat)
    (pts dts : Option Int) :
    ((s.parse buf pts dts).ok = false ↔
      (s.lastAudioDecoderConfig = none ∧
       (lookForSyncWord (s.esByteQueue ++ buf) 0).found = true ∧
       (lookForSyncWord (s.esByteQueue ++ buf) 0).newPos +
         (lookForSyncWord (s.esByteQueue ++ buf) 0).frameSz ≤ (s.esByteQueue ++ buf).length ∧
       validHeaderConfig (s.esByteQueue ++ buf)
         (lookForSyncWord (s.esByteQueue ++ buf) 0).newPos = false)) ∧
    ((s.parse buf pts dts).ok = false →
      (s.parse buf pts dts).state.esByteQueue = s.esByteQueue ++ buf ∧
      (s.parse buf pts dts).state.ptsList = recordedPtsList s pts ∧
      (s.parse buf pts dts).events = [] ∧
      (s.parse buf pts dts).state.lastAudioDecoderConfig = none ∧
      (s.parse buf pts dts).state.audioTimestampHelper = s.audioTimestampHelper) := by
  cases hcfg : s.lastAudioDecoderConfig with
  | some c =>
    have hok := (@parse_config_some s buf pts dts c hcfg).1
    constructor
    · rw [hok]
      simp
    · intro hfail
      rw [hok] at hfail
      exact absurd hfail (by simp)
  | none =>
    have hlp : parseLoopOf s buf pts = adtsParseLoop (s.esByteQueue ++ buf) s.sbrInMimetype
        s.trackId ((s.esByteQueue ++ buf).length + 1) 0 (recordedPtsList s pts) none
        s.audioTimestampHelper := by
      rw [parseLoopOf, hcfg]
    obtain ⟨hiff, hfailout⟩ := adtsParseLoop_fail_iff (s.esByteQueue ++ buf) s.sbrInMimetype
      s.trackId (s.esByteQueue ++ buf).length 0 (recordedPtsList s pts)
      s.audioTimestampHelper
    constructor
    · rw [parse_ok_eq _ _ _ dts, hlp, hiff]
      simp
    · intro hfail
      rw [parse_ok_eq _ _ _ dts, hlp] at hfail
      obtain ⟨he, hp, hcf, hh, _⟩ := hfailout hfail
      have hst := parse_state_fail s buf pts dts (by rw [hlp]; exact hfail)
      rw [parse_events_eq _ _ _ dts, hlp, hst]
      exact ⟨rfl, by rw [hlp, hp], he, by rw [hlp, hcf], by rw [hlp, hh]⟩

/-- C10 witness: a complete, corroborated frame whose header carries the
reserved frequency index 13 makes `Parse` fail from a fresh parser, with the
input retained in the queue and nothing emitted; and a buffer with no sync
word at all parses successfully. -/
theorem adts_parse_failure_characterization_witness :
    ((mkEsParserAdts 1 false).parse (adtsFrameBadFreq ++ adtsFrameBadFreq) none none).ok
      = false ∧
    ((mkEsParserAdts 1 false).parse (adtsFrameBadFreq ++ adtsFrameBadFreq) none
      none).state.esByteQueue = adtsFrameBadFreq ++ adtsFrameBadFreq ∧
    ((mkEsParserAdts 1 false).parse (List.replicate 20 0) none none).ok = true := by
  refine ⟨?_, ?_, ?_⟩
  · exact (adts_parse_failure_characterization (mkEsParserAdts 1 false)
      (adtsFrameBadFreq ++ adtsFrameBadFreq) none none).1.mpr
      ⟨rfl, by decide, by decide, by decide⟩
  · exact ((adts_parse_failure_characterization (mkEsParserAdts 1 false)
      (adtsFrameBadFreq ++ adtsFrameBadFreq) none none).2
      ((adts_parse_failure_characterization (mkEsParserAdts 1 false)
        (adtsFrameBadFreq ++ adtsFrameBadFreq) none none).1.mpr
        ⟨rfl, by decide, by decide, by decide⟩)).1
  · by_contra hne
    have := (adts_parse_failure_characterization (mkEsParserAdts 1 false)
      (List.replicate 20 0) none none).1.mp (by simpa using hne)
    exact absurd this.2.1 (by decide)

/-! ### Pending-timestamp lemmas -/

theorem setBaseTimestamp_setBaseTimestamp (h : AudioTimestampHelper) (x y : Int) :
    (h.setBaseTimestamp x).setBaseTimestamp y = h.setBaseTimestamp y := rfl

theorem popApplyPts_suffix : ∀ (l : List (Int × Int)) (h : AudioTimestampHelper) (p : Int),
    (popApplyPts l h p).1 <:+ l := by
  intro l
  induction l with
  | nil => intro h p; simp [popApplyPts]
  | cons e rest ih =>
    intro h p
    by_cases he : e.1 ≤ p
    · simp only [popApplyPts, if_pos he]
      exact (ih (h.setBaseTimestamp e.2) p).trans (List.suffix_cons e rest)
    · simp only [popApplyPts, if_neg he]
      exact List.suffix_rfl

theorem adtsParseLoop_ptsList_suffix (raw : List Nat) (sbr : Bool) (tid : Nat) :
    ∀ fuel pos pl cfg h,
      (adtsParseLoop raw sbr tid fuel pos pl cfg h).ptsList <:+ pl := by
  intro fuel
  induction fuel with
  | zero => intro pos pl cfg h; exact List.suffix_rfl
  | succ n ih =>
    intro pos pl cfg h
    simp only [adtsParseLoop]
    by_cases hf : (lookForSyncWord raw pos).found
    · simp only [hf, if_true]
      by_cases hc : (lookForSyncWord raw pos).newPos +
          (lookForSyncWord raw pos).frameSz ≤ raw.length
      · simp only [if_pos hc]
        cases hu : updateAudioConfiguration sbr tid cfg h raw (lookForSyncWord raw pos).newPos
          with
        | none => exact List.suffix_rfl
        | some r =>
          obtain ⟨c1, hh1, ev1⟩ := r
          dsimp only
          exact (ih _ _ _ _).trans (popApplyPts_suffix pl hh1 _)
      · simp only [if_neg hc]
        exact List.suffix_rfl
    · simp only [hf, if_false]
      exact List.suffix_rfl

theorem adtsParseLoop_pos_le (raw : List Nat) (sbr : Bool) (tid : Nat) :
    ∀ fuel pos pl cfg h, pos ≤ raw.length →
      pos ≤ (adtsParseLoop raw sbr tid fuel pos pl cfg h).pos ∧
      (adtsParseLoop raw sbr tid fuel pos pl cfg h).pos ≤ raw.length := by
  intro fuel
  induction fuel with
  | zero => intro pos pl cfg h hp; exact ⟨le_refl _, hp⟩
  | succ n ih =>
    intro pos pl cfg h hp
    simp only [adtsParseLoop]
    by_cases hf : (lookForSyncWord raw pos).found
    · simp only [hf, if_true]
      have hge : pos ≤ (lookForSyncWord raw pos).newPos := lookForSyncWord_ge
      by_cases hc : (lookForSyncWord raw pos).newPos +
          (lookForSyncWord raw pos).frameSz ≤ raw.length
      · simp only [if_pos hc]
        cases hu : updateAudioConfiguration sbr tid cfg h raw (lookForSyncWord raw pos).newPos
          with
        | none => exact ⟨hge, lookForSyncWord_le hp⟩
        | some r =>
          obtain ⟨c1, hh1, ev1⟩ := r
          dsimp only
          obtain ⟨h1, h2⟩ := ih ((lookForSyncWord raw pos).newPos +
            (lookForSyncWord raw pos).frameSz) (popApplyPts pl hh1
              ((lookForSyncWord raw pos).newPos : Int)).1 (some c1)
            (some ((popApplyPts pl hh1
              ((lookForSyncWord raw pos).newPos : Int)).2.addFrames kSamplesPerAACFrame)) hc
          exact ⟨by omega, h2⟩
      · simp only [if_neg hc]
        exact ⟨hge, lookForSyncWord_le hp⟩
    · simp only [hf, if_false]
      exact ⟨lookForSyncWord_ge, lookForSyncWord_le hp⟩

theorem pairwise_shift {l : List (Int × Int)} (d : Int)
    (h : PtsOffsetsSorted l) : PtsOffsetsSorted (l.map (fun e => (e.1 - d, e.2))) := by
  unfold PtsOffsetsSorted at h ⊢
  refine List.Pairwise.map _ ?_ h
  intro a b hab
  simpa using hab

theorem discardEs_ptsList (s : EsParserAdts) (n : Nat) :
    (discardEs s n).ptsList = s.ptsList.map (fun e => (e.1 - (n : Int), e.2)) := by
  unfold discardEs
  split
  · next hz => subst hz; simp
  · rfl

theorem discardEs_queue (s : EsParserAdts) (n : Nat) :
    (discardEs s n).esByteQueue = s.esByteQueue.drop n := by
  unfold discardEs
  split
  · next hz => subst hz; rfl
  · rfl

/-- One `Parse` call preserves offset bounds and sortedness of the
pending-timestamp list, with the pushed-byte total advanced. -/
theorem parse_pts_invariant {s : EsParserAdts} {T : Nat} (buf : List Nat)
    (pts dts : Option Int) (hB : PtsOffsetsBounded s T)
    (hS : PtsOffsetsSorted s.ptsList) :
    PtsOffsetsBounded (s.parse buf pts dts).state (T + buf.length) ∧
    PtsOffsetsSorted (s.parse buf pts dts).state.ptsList := by
  have hlen : (s.esByteQueue ++ buf).length = s.esByteQueue.length + buf.length :=
    List.length_append _ _
  -- bounds and sortedness of the recorded list
  have hBrec : ∀ e ∈ recordedPtsList s pts,
      (s.esByteQueue.length : Int) - T ≤ e.1 ∧ e.1 ≤ (s.esByteQueue.length : Int) := by
    intro e he
    cases pts with
    | none => exact hB e he
    | some p =>
      simp only [recordedPtsList, List.mem_append, List.mem_singleton] at he
      rcases he with he | he
      · exact hB e he
      · subst he; constructor <;> simp
  have hSrec : PtsOffsetsSorted (recordedPtsList s pts) := by
    cases pts with
    | none => exact hS
    | some p =>
      simp only [recordedPtsList]
      refine List.pairwise_append.mpr ⟨hS, List.pairwise_singleton _ _, ?_⟩
      intro a ha b hb
      simp only [List.mem_singleton] at hb
      subst hb
      exact (hB a ha).2
  -- the loop output list is a suffix of the recorded list
  have hsuf : (parseLoopOf s buf pts).ptsList <:+ recordedPtsList s pts :=
    adtsParseLoop_ptsList_suffix _ _ _ _ _ _ _ _
  have hmem : ∀ e ∈ (parseLoopOf s buf pts).ptsList, e ∈ recordedPtsList s pts :=
    fun e he => hsuf.subset he
  have hSloop : PtsOffsetsSorted (parseLoopOf s buf pts).ptsList :=
    hSrec.sublist hsuf.sublist
  have hposle : (parseLoopOf s buf pts).pos ≤ (s.esByteQueue ++ buf).length :=
    (adtsParseLoop_pos_le _ _ _ _ _ _ _ _ (Nat.zero_le _)).2
  rw [parse_eq]
  by_cases hok : (parseLoopOf s buf pts).ok
  · constructor
    · intro e he
      simp only [hok, if_true, discardEs_ptsList, List.mem_map] at he
      obtain ⟨a, ha, rfl⟩ := he
      obtain ⟨h1, h2⟩ := hBrec a (hmem a ha)
      simp only [hok, if_true, discardEs_queue, List.length_drop, hlen]
      rw [hlen] at hposle
      constructor <;> · dsimp only; omega
    · simp only [hok, if_true, discardEs_ptsList]
      exact pairwise_shift _ hSloop
  · have hok' : (parseLoopOf s buf pts).ok = false := by
      cases h : (parseLoopOf s buf pts).ok
      · rfl
      · exact absurd h hok
    constructor
    · intro e he
      simp only [hok', Bool.false_eq_true, if_false] at he
      obtain ⟨h1, h2⟩ := hBrec e (hmem e he)
      simp only [hok', Bool.false_eq_true, if_false, hlen]
      constructor <;> omega
    · simp only [hok', Bool.false_eq_true, if_false]
      exact hSloop

theorem runEs_pts_invariant :
    ∀ (calls : List (List Nat × Option Int)) (s : EsParserAdts) (T : Nat),
      PtsOffsetsBounded s T → PtsOffsetsSorted s.ptsList →
      PtsOffsetsBounded (runEs s calls).1 (T + totalPushed calls) ∧
      PtsOffsetsSorted (runEs s calls).1.ptsList := by
  intro calls
  induction calls with
  | nil =>
    intro s T hB hS
    simpa [runEs, totalPushed] using ⟨hB, hS⟩
  | cons call rest ih =>
    intro s T hB hS
    obtain ⟨buf, p⟩ := call
    obtain ⟨hB1, hS1⟩ := parse_pts_invariant buf p none hB hS
    obtain ⟨hB2, hS2⟩ := ih (s.parse buf p none).state (T + buf.length) hB1 hS1
    refine ⟨?_, hS2⟩
    simp only [runEs]
    have : T + totalPushed ((buf, p) :: rest) = T + buf.length + totalPushed rest := by
      simp [totalPushed]; ring
    rw [this]
    exact hB2

/-- C5 (amended): after any sequence of `Parse` calls, every remaining
pending-timestamp offset lies between `queue length − total bytes ever
pushed` and `queue length`.  Offsets can go negative (see the counterexample:
the end-of-call discard shifts an offset below zero whenever the scan has
passed the recorded position without finding a frame there), but they never
fall below the negated count of discarded bytes — equivalently, the absolute
stream position each timestamp refers to is never negative — and they never
exceed the current queue length. -/
theorem adts_pts_offset_bounds (tid : Nat) (sbr : Bool)
    (calls : List (List Nat × Option Int)) :
    ∀ e ∈ (runEs (mkEsParserAdts tid sbr) calls).1.ptsList,
      ((runEs (mkEsParserAdts tid sbr) calls).1.esByteQueue.length : Int)
        - totalPushed calls ≤ e.1 ∧
      e.1 ≤ ((runEs (mkEsParserAdts tid sbr) calls).1.esByteQueue.length : Int) := by
  have h := runEs_pts_invariant calls (mkEsParserAdts tid sbr) 0
    (by intro e he; simp [mkEsParserAdts] at he)
    (by simp [mkEsParserAdts, PtsOffsetsSorted])
  intro e he
  have hb := h.1 e he
  simpa using hb

theorem adts_pts_offset_bounds_witness :
    ((runEs (mkEsParserAdts 1 false) [(List.replicate 20 0, some 5)]).1.esByteQueue.length :
      Int) - totalPushed [(List.replicate 20 0, some 5)] ≤ (-13 : Int) ∧
    (-13 : Int) ≤ ((runEs (mkEsParserAdts 1 false)
      [(List.replicate 20 0, some 5)]).1.esByteQueue.length : Int) :=
  adts_pts_offset_bounds 1 false [(List.replicate 20 0, some 5)]
    ((-13 : Int), (5 : Int)) (by decide)

/-! ### Pop-loop characterization -/

theorem foldl_pts_init_irrel : ∀ (F : List (Int × Int)) (a b : Option Int), F ≠ [] →
    F.foldl (fun _ e => some e.2) a = F.foldl (fun _ e => some e.2) b := by
  intro F
  cases F with
  | nil => intro a b hne; exact absurd rfl hne
  | cons e F' => intro a b _; rfl

theorem foldl_pts_some_ne_none : ∀ (F : List (Int × Int)) (a : Int),
    F.foldl (fun _ e => some e.2) (some a) ≠ none := by
  intro F
  induction F with
  | nil => intro a h; exact Option.noConfusion h
  | cons e F' ih => intro a; exact ih e.2

/-- When the pending-timestamp offsets are weakly sorted, the source's pop
loop removes exactly the entries whose offset is at most the frame position,
and the helper's base becomes the value of the last (most recent) such entry,
earlier ones being overwritten. -/
theorem popApplyPts_characterization :
    ∀ (l : List (Int × Int)) (h : AudioTimestampHelper) (p : Int),
      PtsOffsetsSorted l →
      (popApplyPts l h p).1 = l.filter (fun e => decide (p < e.1)) ∧
      (popApplyPts l h p).2 = (match lastAppliedPts l p with
        | some t => h.setBaseTimestamp t
        | none => h) := by
  intro l
  induction l with
  | nil => intro h p _; exact ⟨rfl, rfl⟩
  | cons e rest ih =>
    intro h p hs
    have hhead : ∀ b ∈ rest, e.1 ≤ b.1 := (List.pairwise_cons.mp hs).1
    have hrest : PtsOffsetsSorted rest := (List.pairwise_cons.mp hs).2
    by_cases he : e.1 ≤ p
    · have hstep : popApplyPts (e :: rest) h p =
          popApplyPts rest (h.setBaseTimestamp e.2) p := by
        simp [popApplyPts, he]
      obtain ⟨ih1, ih2⟩ := ih (h.setBaseTimestamp e.2) p hrest
      constructor
      · rw [hstep, ih1]
        have hhd : decide (p < e.1) = false := by
          simp only [decide_eq_false_iff_not]
          omega
        simp [List.filter_cons, hhd]
      · rw [hstep, ih2]
        have hfe : decide (e.1 ≤ p) = true := by simpa using he
        have hfil : (e :: rest).filter (fun x => decide (x.1 ≤ p)) =
            e :: rest.filter (fun x => decide (x.1 ≤ p)) := by
          simp [List.filter_cons, hfe]
        cases hF : rest.filter (fun x => decide (x.1 ≤ p)) with
        | nil =>
          have h1 : lastAppliedPts rest p = none := by
            simp [lastAppliedPts, hF]
          have h2 : lastAppliedPts (e :: rest) p = some e.2 := by
            simp only [lastAppliedPts, hfil, hF]
            rfl
          rw [h1, h2]
        | cons f F' =>
          have hne : rest.filter (fun x => decide (x.1 ≤ p)) ≠ [] := by
            rw [hF]; exact List.cons_ne_nil _ _
          have h1 : lastAppliedPts (e :: rest) p = lastAppliedPts rest p := by
            simp only [lastAppliedPts, hfil]
            exact foldl_pts_init_irrel _ (some e.2) none hne
          rw [h1]
          cases hL : lastAppliedPts rest p with
          | none =>
            exfalso
            unfold lastAppliedPts at hL
            rw [hF] at hL
            exact foldl_pts_some_ne_none F' f.2 hL
          | some t => exact rfl
    · have hstep : popApplyPts (e :: rest) h p = (e :: rest, h) := by
        simp [popApplyPts, he]
      constructor
      · rw [hstep]
        have hhd : decide (p < e.1) = true := by
          simp only [decide_eq_true_eq]
          omega
        have hall : rest.filter (fun x => decide (p < x.1)) = rest := by
          refine List.filter_eq_self.mpr ?_
          intro b hb
          have := hhead b hb
          simp only [decide_eq_true_eq]
          omega
        simp [List.filter_cons, hhd, hall]
      · rw [hstep]
        have hnone : lastAppliedPts (e :: rest) p = none := by
          have hfe : decide (e.1 ≤ p) = false := by
            simp only [decide_eq_false_iff_not]
            omega
          have hfr : rest.filter (fun x => decide (x.1 ≤ p)) = [] := by
            refine List.filter_eq_nil_iff.mpr ?_
            intro b hb
            have := hhead b hb
            simp only [decide_eq_true_eq]
            omega
          simp [lastAppliedPts, List.filter_cons, hfe, hfr]
        rw [hnone]

/-- C8: pending-timestamp recording and application.  (1) A `Parse` call
supplied with a pts behaves exactly as if a `PendingTimestamp` with offset
equal to the unconsumed length before the new bytes are appended had been
queued beforehand.  (2) On a weakly sorted pending list — and (3) the pending
list of every reachable parser state is weakly sorted — the pop loop run at an
emitted frame's start offset removes exactly the entries with recorded offset
at most that offset, and sets the base timestamp to the most recently removed
value (later entries overwriting earlier ones); with no applicable entry the
helper is untouched. -/
theorem adts_pending_timestamp_record_apply :
    (∀ (s : EsParserAdts) (buf : List Nat) (t : Int) (dts : Option Int),
      s.parse buf (some t) dts =
        EsParserAdts.parse
          { s with ptsList := s.ptsList ++ [((s.esByteQueue.length : Int), t)] }
          buf none dts) ∧
    (∀ (l : List (Int × Int)) (h : AudioTimestampHelper) (p : Int),
      PtsOffsetsSorted l →
      (popApplyPts l h p).1 = l.filter (fun e => decide (p < e.1)) ∧
      (popApplyPts l h p).2 = (match lastAppliedPts l p with
        | some t => h.setBaseTimestamp t
        | none => h)) ∧
    (∀ (tid : Nat) (sbr : Bool) (calls : List (List Nat × Option Int)),
      PtsOffsetsSorted (runEs (mkEsParserAdts tid sbr) calls).1.ptsList) := by
  refine ⟨?_, popApplyPts_characterization, ?_⟩
  · intro s buf t dts
    rfl
  · intro tid sbr calls
    exact (runEs_pts_invariant calls (mkEsParserAdts tid sbr) 0
      (by intro e he; simp [mkEsParserAdts] at he)
      (by simp [mkEsParserAdts, PtsOffsetsSorted])).2

theorem adts_pending_timestamp_record_apply_witness :
    (popApplyPts [((-2 : Int), (5 : Int)), ((3 : Int), (9 : Int))]
      (mkAudioTimestampHelper 90000 44100) 0).1 = [((3 : Int), (9 : Int))] ∧
    (popApplyPts [((-2 : Int), (5 : Int)), ((3 : Int), (9 : Int))]
      (mkAudioTimestampHelper 90000 44100) 0).2 =
      (mkAudioTimestampHelper 90000 44100).setBaseTimestamp 5 := by
  obtain ⟨h1, h2⟩ := adts_pending_timestamp_record_apply.2.1
    [((-2 : Int), (5 : Int)), ((3 : Int), (9 : Int))]
    (mkAudioTimestampHelper 90000 44100) 0
    (by unfold PtsOffsetsSorted; decide)
  constructor
  · rw [h1]; rfl
  · rw [h2]; rfl

/-! ### Reset/re-feed simulation -/

theorem setBase_congr_shape {g₁ g₂ : AudioTimestampHelper}
    (hts : g₁.timescale = g₂.timescale) (hr : g₁.sampleRate = g₂.sampleRate) (x : Int) :
    g₁.setBaseTimestamp x = g₂.setBaseTimestamp x := by
  cases g₁
  cases g₂
  simp only at hts hr
  simp [AudioTimestampHelper.setBaseTimestamp, hts, hr]

/-- Shape of a successful fresh configuration: the configuration and the
fired events are functions of the header alone, and the recreated helper
always carries the MPEG-2 timescale and the table rate. -/
theorem update_none_parts {sbr : Bool} {tid : Nat} {h : Option AudioTimestampHelper}
    {raw : List Nat} {off : Nat} {r : AudioStreamInfo × AudioTimestampHelper × List EsEvent}
    (hu : updateAudioConfiguration sbr tid none h raw off = some r) :
    r.1 = ⟨tid, kMpeg2Timescale, kInfiniteDuration, kCodecAAC, 16,
           kAdtsNumChannelsTable.getD (extractAdtsChannelConfig raw off) 0,
           kAdtsFrequencyTable.getD (extractAdtsFrequencyIndex raw off) 0⟩ ∧
    r.2.1.timescale = kMpeg2Timescale ∧
    r.2.1.sampleRate = kAdtsFrequencyTable.getD (extractAdtsFrequencyIndex raw off) 0 ∧
    r.2.2 = [EsEvent.configReady r.1] := by
  by_cases h1 : kAdtsFrequencyTableSize ≤ extractAdtsFrequencyIndex raw off
  · simp [updateAudioConfiguration, h1] at hu
  · by_cases h2 : extractAdtsChannelConfig raw off = 0 ∨
        kAdtsNumChannelsTableSize ≤ extractAdtsChannelConfig raw off
    · simp [updateAudioConfiguration, h1, h2] at hu
    · simp only [updateAudioConfiguration, if_neg h1, if_neg h2] at hu
      rw [Option.some_inj] at hu
      subst hu
      refine ⟨rfl, ?_, ?_, rfl⟩ <;>
        cases h <;> rfl

/-- Core simulation: from the same position, pending list and (absent)
configuration, the frame loop behaves identically for two different helpers,
provided the earliest pending timestamp applies at or before the current
position; if a configuration is established along the way the helpers end up
equal, otherwise each survives untouched. -/
theorem adtsParseLoop_helper_sim (raw : List Nat) (sbr : Bool) (tid : Nat)
    (fuel pos : Nat) (pl : List (Int × Int)) (h₁ h₂ : Option AudioTimestampHelper)
    (hhead : ∃ e r', pl = e :: r' ∧ e.1 ≤ (pos : Int)) :
    (adtsParseLoop raw sbr tid fuel pos pl none h₁).pos =
      (adtsParseLoop raw sbr tid fuel pos pl none h₂).pos ∧
    (adtsParseLoop raw sbr tid fuel pos pl none h₁).ptsList =
      (adtsParseLoop raw sbr tid fuel pos pl none h₂).ptsList ∧
    (adtsParseLoop raw sbr tid fuel pos pl none h₁).config =
      (adtsParseLoop raw sbr tid fuel pos pl none h₂).config ∧
    (adtsParseLoop raw sbr tid fuel pos pl none h₁).events =
      (adtsParseLoop raw sbr tid fuel pos pl none h₂).events ∧
    (adtsParseLoop raw sbr tid fuel pos pl none h₁).ok =
      (adtsParseLoop raw sbr tid fuel pos pl none h₂).ok ∧
    (adtsParseLoop raw sbr tid fuel pos pl none h₁).corrob =
      (adtsParseLoop raw sbr tid fuel pos pl none h₂).corrob ∧
    ((adtsParseLoop raw sbr tid fuel pos pl none h₁).config.isSome →
      (adtsParseLoop raw sbr tid fuel pos pl none h₁).helper =
        (adtsParseLoop raw sbr tid fuel pos pl none h₂).helper) ∧
    ((adtsParseLoop raw sbr tid fuel pos pl none h₁).config = none →
      (adtsParseLoop raw sbr tid fuel pos pl none h₁).helper = h₁ ∧
      (adtsParseLoop raw sbr tid fuel pos pl none h₂).helper = h₂) := by
  obtain ⟨e, r', hple, hle⟩ := hhead
  cases fuel with
  | zero => simp [adtsParseLoop]
  | succ n =>
    by_cases hf : (lookForSyncWord raw pos).found
    · by_cases hc : (lookForSyncWord raw pos).newPos +
          (lookForSyncWord raw pos).frameSz ≤ raw.length
      · cases hu₁ : updateAudioConfiguration sbr tid none h₁ raw
            (lookForSyncWord raw pos).newPos with
        | none =>
          have hv : validHeaderConfig raw (lookForSyncWord raw pos).newPos = false :=
            (updateAudioConfiguration_none_iff sbr tid h₁ raw _).mp hu₁
          have hu₂ : updateAudioConfiguration sbr tid none h₂ raw
              (lookForSyncWord raw pos).newPos = none :=
            (updateAudioConfiguration_none_iff sbr tid h₂ raw _).mpr hv
          simp [adtsParseLoop, hf, hc, hu₁, hu₂]
        | some r₁ =>
          cases hu₂ : updateAudioConfiguration sbr tid none h₂ raw
              (lookForSyncWord raw pos).newPos with
          | none =>
            exfalso
            have hv : validHeaderConfig raw (lookForSyncWord raw pos).newPos = false :=
              (updateAudioConfiguration_none_iff sbr tid h₂ raw _).mp hu₂
            have : updateAudioConfiguration sbr tid none h₁ raw
                (lookForSyncWord raw pos).newPos = none :=
              (updateAudioConfiguration_none_iff sbr tid h₁ raw _).mpr hv
            rw [this] at hu₁
            exact Option.noConfusion hu₁
          | some r₂ =>
            obtain ⟨c₁, g₁, ev₁⟩ := r₁
            obtain ⟨c₂, g₂, ev₂⟩ := r₂
            obtain ⟨hcfg₁, hts₁, hrate₁, hev₁⟩ := update_none_parts hu₁
            obtain ⟨hcfg₂, hts₂, hrate₂, hev₂⟩ := update_none_parts hu₂
            simp only at hcfg₁ hts₁ hrate₁ hev₁ hcfg₂ hts₂ hrate₂ hev₂
            have hcfg : c₁ = c₂ := by rw [hcfg₁, hcfg₂]
            have hle' : e.1 ≤ ((lookForSyncWord raw pos).newPos : Int) := by
              have := @lookForSyncWord_ge raw pos
              have hcast : (pos : Int) ≤ ((lookForSyncWord raw pos).newPos : Int) := by
                exact_mod_cast this
              omega
            have hpa : popApplyPts pl g₁ ((lookForSyncWord raw pos).newPos : Int) =
                popApplyPts pl g₂ ((lookForSyncWord raw pos).newPos : Int) := by
              rw [hple]
              simp only [popApplyPts, if_pos hle']
              rw [setBase_congr_shape (hts₁.trans hts₂.symm)
                (hrate₁.trans hrate₂.symm) e.2]
            simp only [adtsParseLoop, hf, if_true, if_pos hc, hu₁, hu₂]
            simp only [hpa, hcfg, hev₁, hev₂, hcfg₁, hcfg₂]
            refine ⟨by trivial, by trivial, by trivial, by trivial, by trivial,
              by trivial, fun _ => by trivial, fun hn => ?_⟩
            exfalso
            have hsome := (adtsParseLoop_config_some raw sbr tid n
              ((lookForSyncWord raw pos).newPos + (lookForSyncWord raw pos).frameSz)
              (popApplyPts pl g₂ ((lookForSyncWord raw pos).newPos : Int)).1
              ⟨tid, kMpeg2Timescale, kInfiniteDuration, kCodecAAC, 16,
                kAdtsNumChannelsTable.getD (extractAdtsChannelConfig raw
                  (lookForSyncWord raw pos).newPos) 0,
                kAdtsFrequencyTable.getD (extractAdtsFrequencyIndex raw
                  (lookForSyncWord raw pos).newPos) 0⟩
              (some ((popApplyPts pl g₂ ((lookForSyncWord raw pos).newPos : Int)).2.addFrames
                kSamplesPerAACFrame))).2.1
            rw [hsome] at hn
            exact Option.noConfusion hn
      · simp [adtsParseLoop, hf, hc]
    · simp [adtsParseLoop, hf]

theorem esparser_ext {a b : EsParserAdts}
    (h1 : a.trackId = b.trackId) (h2 : a.sbrInMimetype = b.sbrInMimetype)
    (h3 : a.esByteQueue = b.esByteQueue) (h4 : a.ptsList = b.ptsList)
    (h5 : a.lastAudioDecoderConfig = b.lastAudioDecoderConfig)
    (h6 : a.audioTimestampHelper = b.audioTimestampHelper) : a = b := by
  cases a; cases b; simp_all

theorem parse_state_track (s : EsParserAdts) (buf : List Nat) (pts dts : Option Int) :
    (s.parse buf pts dts).state.trackId = s.trackId ∧
    (s.parse buf pts dts).state.sbrInMimetype = s.sbrInMimetype := by
  rw [parse_eq]
  by_cases h : (parseLoopOf s buf pts).ok <;>
    simp [h, (discardEs_track _ _).1, (discardEs_track _ _).2]

theorem parse_state_queue (s : EsParserAdts) (buf : List Nat) (pts dts : Option Int) :
    (s.parse buf pts dts).state.esByteQueue =
      (if (parseLoopOf s buf pts).ok
       then (s.esByteQueue ++ buf).drop (parseLoopOf s buf pts).pos
       else s.esByteQueue ++ buf) := by
  rw [parse_eq]
  by_cases h : (parseLoopOf s buf pts).ok <;> simp [h, discardEs_queue]

theorem parse_state_ptsList (s : EsParserAdts) (buf : List Nat) (pts dts : Option Int) :
    (s.parse buf pts dts).state.ptsList =
      (if (parseLoopOf s buf pts).ok
       then (parseLoopOf s buf pts).ptsList.map
         (fun e => (e.1 - ((parseLoopOf s buf pts).pos : Int), e.2))
       else (parseLoopOf s buf pts).ptsList) := by
  rw [parse_eq]
  by_cases h : (parseLoopOf s buf pts).ok <;> simp [h, discardEs_ptsList]

/-- Core of the reset/re-feed argument at the level of one `Parse` call:
with equal queues, pending lists and no configuration on either side, a call
whose earliest recorded timestamp applies at or before offset 0 produces the
same emissions and result on both sides, and leaves the two parsers
`ResetSim`-related. -/
theorem parse_sim_core (s t : EsParserAdts) (buf : List Nat) (p dts₁ dts₂ : Option Int)
    (htid : s.trackId = t.trackId) (hsbr : s.sbrInMimetype = t.sbrInMimetype)
    (hq : s.esByteQueue = t.esByteQueue) (hpl : s.ptsList = t.ptsList)
    (hc1 : s.lastAudioDecoderConfig = none) (hc2 : t.lastAudioDecoderConfig = none)
    (hhead : ∃ e r', recordedPtsList s p = e :: r' ∧ e.1 ≤ 0) :
    (s.parse buf p dts₁).events = (t.parse buf p dts₂).events ∧
    (s.parse buf p dts₁).ok = (t.parse buf p dts₂).ok ∧
    ResetSim (s.parse buf p dts₁).state (t.parse buf p dts₂).state := by
  have hrec : recordedPtsList s p = recordedPtsList t p := by
    cases p <;> simp [recordedPtsList, hpl, hq]
  have hlp_s : parseLoopOf s buf p = adtsParseLoop (s.esByteQueue ++ buf) s.sbrInMimetype
      s.trackId ((s.esByteQueue ++ buf).length + 1) 0 (recordedPtsList s p) none
      s.audioTimestampHelper := by
    rw [parseLoopOf, hc1]
  have hlp_t : parseLoopOf t buf p = adtsParseLoop (s.esByteQueue ++ buf) s.sbrInMimetype
      s.trackId ((s.esByteQueue ++ buf).length + 1) 0 (recordedPtsList s p) none
      t.audioTimestampHelper := by
    rw [parseLoopOf, hc2, ← hq, ← htid, ← hsbr, ← hrec]
  have hhead' : ∃ e r', recordedPtsList s p = e :: r' ∧ e.1 ≤ ((0 : Nat) : Int) := by
    obtain ⟨e, r', h1, h2⟩ := hhead
    exact ⟨e, r', h1, by simpa using h2⟩
  obtain ⟨hpos, hptl, hcfg, hev, hok, hcor, hsomeh, hnoneh⟩ :=
    adtsParseLoop_helper_sim (s.esByteQueue ++ buf) s.sbrInMimetype s.trackId
      ((s.esByteQueue ++ buf).length + 1) 0 (recordedPtsList s p)
      s.audioTimestampHelper t.audioTimestampHelper hhead'
  refine ⟨?_, ?_, ?_⟩
  · rw [parse_events_eq _ _ _ dts₁, parse_events_eq _ _ _ dts₂, hlp_s, hlp_t, hev]
  · rw [parse_ok_eq _ _ _ dts₁, parse_ok_eq _ _ _ dts₂, hlp_s, hlp_t, hok]
  · -- field-wise comparison of the post states
    have ht1 := parse_state_track s buf p dts₁
    have ht2 := parse_state_track t buf p dts₂
    have hq1 := parse_state_queue s buf p dts₁
    have hq2 := parse_state_queue t buf p dts₂
    have hp1 := parse_state_ptsList s buf p dts₁
    have hp2 := parse_state_ptsList t buf p dts₂
    have hcf1 := parse_config_eq s buf p dts₁
    have hcf2 := parse_config_eq t buf p dts₂
    have hh1 := parse_helper_eq s buf p dts₁
    have hh2 := parse_helper_eq t buf p dts₂
    have hqeq : (s.parse buf p dts₁).state.esByteQueue =
        (t.parse buf p dts₂).state.esByteQueue := by
      rw [hq1, hq2, hlp_s, hlp_t, hok, hpos, hq]
    have hpleq : (s.parse buf p dts₁).state.ptsList =
        (t.parse buf p dts₂).state.ptsList := by
      rw [hp1, hp2, hlp_s, hlp_t, hok, hpos, hptl]
    have hcfeq : (s.parse buf p dts₁).state.lastAudioDecoderConfig =
        (t.parse buf p dts₂).state.lastAudioDecoderConfig := by
      rw [hcf1, hcf2, hlp_s, hlp_t, hcfg]
    cases hcfg1 : (adtsParseLoop (s.esByteQueue ++ buf) s.sbrInMimetype s.trackId
        ((s.esByteQueue ++ buf).length + 1) 0 (recordedPtsList s p) none
        s.audioTimestampHelper).config with
    | some c =>
      left
      refine esparser_ext (by rw [ht1.1, ht2.1, htid]) (by rw [ht1.2, ht2.2, hsbr])
        hqeq hpleq hcfeq ?_
      rw [hh1, hh2, hlp_s, hlp_t]
      exact hsomeh (by rw [hcfg1]; rfl)
    | none =>
      right
      obtain ⟨_, hplkeep, _⟩ := (adtsParseLoop_config_none (s.esByteQueue ++ buf)
        s.sbrInMimetype s.trackId ((s.esByteQueue ++ buf).length + 1) 0
        (recordedPtsList s p) s.audioTimestampHelper).2 hcfg1
      obtain ⟨e, r', hple, hle⟩ := hhead
      refine ⟨by rw [ht1.1, ht2.1, htid], by rw [ht1.2, ht2.2, hsbr], hqeq, hpleq,
        by rw [hcf1, hlp_s, hcfg1], by rw [hcf2, hlp_t, ← hcfg, hcfg1], ?_⟩
      rw [hp1, hlp_s]
      set L := adtsParseLoop (s.esByteQueue ++ buf) s.sbrInMimetype s.trackId
          ((s.esByteQueue ++ buf).length + 1) 0 (recordedPtsList s p) none
          s.audioTimestampHelper with hLdef
      by_cases hokv : L.ok
      · simp only [hokv, if_true]
        rw [hplkeep, hple, List.map_cons]
        refine ⟨(e.1 - (L.pos : Int), e.2), _, rfl, ?_⟩
        simp only
        omega
      · simp only [hokv, if_false]
        rw [hplkeep, hple]
        exact ⟨e, r', rfl, hle⟩

theorem parse_resetsim (s t : EsParserAdts) (buf : List Nat) (p dts₁ dts₂ : Option Int)
    (h : ResetSim s t) :
    (s.parse buf p dts₁).events = (t.parse buf p dts₂).events ∧
    (s.parse buf p dts₁).ok = (t.parse buf p dts₂).ok ∧
    ResetSim (s.parse buf p dts₁).state (t.parse buf p dts₂).state := by
  rcases h with rfl | ⟨htid, hsbr, hq, hpl, hc1, hc2, e, r', hple, hle⟩
  · exact ⟨rfl, rfl, Or.inl rfl⟩
  · refine parse_sim_core s t buf p dts₁ dts₂ htid hsbr hq hpl hc1 hc2 ?_
    cases p with
    | none => exact ⟨e, r', hple, hle⟩
    | some tv =>
      exact ⟨e, r' ++ [((s.esByteQueue.length : Int), tv)],
        by simp [recordedPtsList, hple], hle⟩

theorem runEs_resetsim : ∀ (calls : List (List Nat × Option Int)) (s t : EsParserAdts),
    ResetSim s t →
    (runEs s calls).2 = (runEs t calls).2 ∧
    ResetSim (runEs s calls).1 (runEs t calls).1 := by
  intro calls
  induction calls with
  | nil => intro s t h; exact ⟨rfl, h⟩
  | cons call rest ih =>
    intro s t h
    obtain ⟨buf, p⟩ := call
    obtain ⟨hev, hok, hsim⟩ := parse_resetsim s t buf p none none h
    obtain ⟨hev2, hsim2⟩ := ih (s.parse buf p none).state (t.parse buf p none).state hsim
    exact ⟨by simp only [runEs]; rw [hev, hev2], hsim2⟩

theorem runEs_track : ∀ (calls : List (List Nat × Option Int)) (s : EsParserAdts),
    (runEs s calls).1.trackId = s.trackId ∧
    (runEs s calls).1.sbrInMimetype = s.sbrInMimetype := by
  intro calls
  induction calls with
  | nil => intro s; exact ⟨rfl, rfl⟩
  | cons call rest ih =>
    intro s
    obtain ⟨buf, p⟩ := call
    obtain ⟨h1, h2⟩ := ih (s.parse buf p none).state
    obtain ⟨h3, h4⟩ := parse_state_track s buf p none
    exact ⟨by simp only [runEs]; rw [h1, h3], by simp only [runEs]; rw [h2, h4]⟩

/-- C2 (amended): `Reset` followed by re-feeding the identical sequence of
`Parse` calls reproduces the original ordered emission sequence exactly,
provided the first call of the sequence supplies a timestamp (which then
applies at or before the first emitted frame and rebases the timeline on both
runs identically).  Without such a timestamp the re-fed epoch's pts values
continue from the pre-`Reset` timeline position, because `Reset` clears the
byte queue, the pending timestamps and the configuration but not the
timestamp helper (see the counterexample). -/
theorem adts_reset_refeed_reproduces (tid : Nat) (sbr : Bool) (buf0 : List Nat)
    (t0 : Int) (rest : List (List Nat × Option Int)) :
    (runEs ((runEs (mkEsParserAdts tid sbr) ((buf0, some t0) :: rest)).1.reset)
      ((buf0, some t0) :: rest)).2 =
    (runEs (mkEsParserAdts tid sbr) ((buf0, some t0) :: rest)).2 := by
  set F := (runEs (mkEsParserAdts tid sbr) ((buf0, some t0) :: rest)).1 with hF
  obtain ⟨htrk, hsbr⟩ := runEs_track ((buf0, some t0) :: rest) (mkEsParserAdts tid sbr)
  obtain ⟨hev1, hok1, hsim1⟩ := parse_sim_core F.reset
    (mkEsParserAdts tid sbr) buf0 (some t0) none none
    (by simpa [EsParserAdts.reset, mkEsParserAdts] using htrk)
    (by simpa [EsParserAdts.reset, mkEsParserAdts] using hsbr)
    (by simp [EsParserAdts.reset, mkEsParserAdts])
    (by simp [EsParserAdts.reset, mkEsParserAdts])
    (by simp [EsParserAdts.reset])
    (by simp [mkEsParserAdts])
    ⟨((0 : Int), t0), [], by simp [recordedPtsList, EsParserAdts.reset], le_refl 0⟩
  obtain ⟨hev2, _⟩ := runEs_resetsim rest _ _ hsim1
  calc (runEs F.reset ((buf0, some t0) :: rest)).2
      = (F.reset.parse buf0 (some t0) none).events ++
        (runEs (F.reset.parse buf0 (some t0) none).state rest).2 := rfl
    _ = ((mkEsParserAdts tid sbr).parse buf0 (some t0) none).events ++
        (runEs ((mkEsParserAdts tid sbr).parse buf0 (some t0) none).state rest).2 := by
        rw [hev1, hev2]
    _ = (runEs (mkEsParserAdts tid sbr) ((buf0, some t0) :: rest)).2 := rfl

theorem adts_reset_refeed_reproduces_witness :
    (runEs ((runEs (mkEsParserAdts 1 false) [(adtsFrameA ++ adtsFrameA, some 0)]).1.reset)
      [(adtsFrameA ++ adtsFrameA, some 0)]).2 =
    (runEs (mkEsParserAdts 1 false) [(adtsFrameA ++ adtsFrameA, some 0)]).2 :=
  adts_reset_refeed_reproduces 1 false (adtsFrameA ++ adtsFrameA) 0 []

/-! ### Chunk-boundary lemmas: candidate tests on prefixes and suffixes -/

theorem getD_drop (a : List Nat) (i j d : Nat) :
    (a.drop i).getD j d = a.getD (i + j) d := by
  simp [List.getD_eq_getElem?_getD, List.getElem?_drop]

theorem extractAdtsFrameSize_append {a : List Nat} (b : List Nat) {off : Nat}
    (h : off + 6 ≤ a.length) :
    extractAdtsFrameSize (a ++ b) off = extractAdtsFrameSize a off := by
  unfold extractAdtsFrameSize
  rw [List.getD_append _ _ _ _ (by omega), List.getD_append _ _ _ _ (by omega),
    List.getD_append _ _ _ _ (by omega)]

theorem extractAdtsFrequencyIndex_append {a : List Nat} (b : List Nat) {off : Nat}
    (h : off + 3 ≤ a.length) :
    extractAdtsFrequencyIndex (a ++ b) off = extractAdtsFrequencyIndex a off := by
  unfold extractAdtsFrequencyIndex
  rw [List.getD_append _ _ _ _ (by omega)]

theorem extractAdtsChannelConfig_append {a : List Nat} (b : List Nat) {off : Nat}
    (h : off + 4 ≤ a.length) :
    extractAdtsChannelConfig (a ++ b) off = extractAdtsChannelConfig a off := by
  unfold extractAdtsChannelConfig
  rw [List.getD_append _ _ _ _ (by omega), List.getD_append _ _ _ _ (by omega)]

theorem extractAdtsFrameSize_drop {a : List Nat} {d off : Nat} (h : d ≤ off) :
    extractAdtsFrameSize (a.drop d) (off - d) = extractAdtsFrameSize a off := by
  unfold extractAdtsFrameSize
  rw [getD_drop, getD_drop, getD_drop,
    show d + (off - d + 5) = off + 5 by omega,
    show d + (off - d + 4) = off + 4 by omega,
    show d + (off - d + 3) = off + 3 by omega]

theorem extractAdtsFrequencyIndex_drop {a : List Nat} {d off : Nat} (h : d ≤ off) :
    extractAdtsFrequencyIndex (a.drop d) (off - d) = extractAdtsFrequencyIndex a off := by
  unfold extractAdtsFrequencyIndex
  rw [getD_drop, show d + (off - d + 2) = off + 2 by omega]

theorem extractAdtsChannelConfig_drop {a : List Nat} {d off : Nat} (h : d ≤ off) :
    extractAdtsChannelConfig (a.drop d) (off - d) = extractAdtsChannelConfig a off := by
  unfold extractAdtsChannelConfig
  rw [getD_drop, getD_drop, show d + (off - d + 3) = off + 3 by omega,
    show d + (off - d + 2) = off + 2 by omega]

/-- Propositional reading of the candidate test. -/
theorem candAccept_iff (raw : List Nat) (o : Nat) :
    candAccept raw o = true ↔
      isAdtsSyncWord (raw.getD o 0) (raw.getD (o + 1) 0) = true ∧
      kAdtsHeaderMinSize ≤ extractAdtsFrameSize raw o ∧
      (o + extractAdtsFrameSize raw o + 2 ≤ raw.length →
       isAdtsSyncWord (raw.getD (o + extractAdtsFrameSize raw o) 0)
         (raw.getD (o + extractAdtsFrameSize raw o + 1) 0) = true) := by
  unfold candAccept
  simp only [Bool.and_eq_true, Bool.not_and, Bool.not_not, Bool.or_eq_true,
    Bool.not_eq_true', decide_eq_true_eq, decide_eq_false_iff_not]
  tauto

/-- Rejected candidates stay rejected when the buffer is extended: any
candidate examined with its corroboration window available (or failing the
sync/size tests, which read the prefix only) is rejected for the same reason
in the extended buffer. -/
theorem candAccept_append_reject {a : List Nat} (b : List Nat) {o : Nat}
    (ho : o + kAdtsHeaderMinSize < a.length) (h : candAccept a o = false) :
    candAccept (a ++ b) o = false := by
  have h6 : o + 6 ≤ a.length := by
    unfold kAdtsHeaderMinSize at ho; omega
  have hfs := extractAdtsFrameSize_append b h6
  have e1 : (a ++ b).getD o 0 = a.getD o 0 := List.getD_append _ _ _ _ (by omega)
  have e2 : (a ++ b).getD (o + 1) 0 = a.getD (o + 1) 0 :=
    List.getD_append _ _ _ _ (by omega)
  rw [Bool.eq_false_iff] at h ⊢
  intro hacc
  apply h
  rw [candAccept_iff] at hacc ⊢
  rw [hfs, e1, e2] at hacc
  obtain ⟨hA, hB, hC⟩ := hacc
  refine ⟨hA, hB, fun hwin => ?_⟩
  have hwin' : o + extractAdtsFrameSize a o + 2 ≤ (a ++ b).length := by
    rw [List.length_append]; omega
  have e3 : (a ++ b).getD (o + extractAdtsFrameSize a o) 0 =
      a.getD (o + extractAdtsFrameSize a o) 0 := List.getD_append _ _ _ _ (by omega)
  have e4 : (a ++ b).getD (o + extractAdtsFrameSize a o + 1) 0 =
      a.getD (o + extractAdtsFrameSize a o + 1) 0 := List.getD_append _ _ _ _ (by omega)
  have := hC hwin'
  rw [e3, e4] at this
  exact this

/-- A corroborated accepted candidate stays accepted when the buffer is
extended: the second sync word it was checked against lies inside the
prefix. -/
theorem candAccept_append_accept {a : List Nat} (b : List Nat) {o : Nat}
    (ho : o + kAdtsHeaderMinSize < a.length) (h : candAccept a o = true)
    (hcorr : o + extractAdtsFrameSize a o + 2 ≤ a.length) :
    candAccept (a ++ b) o = true := by
  have h6 : o + 6 ≤ a.length := by
    unfold kAdtsHeaderMinSize at ho; omega
  have hfs := extractAdtsFrameSize_append b h6
  have e1 : (a ++ b).getD o 0 = a.getD o 0 := List.getD_append _ _ _ _ (by omega)
  have e2 : (a ++ b).getD (o + 1) 0 = a.getD (o + 1) 0 :=
    List.getD_append _ _ _ _ (by omega)
  have e3 : (a ++ b).getD (o + extractAdtsFrameSize a o) 0 =
      a.getD (o + extractAdtsFrameSize a o) 0 := List.getD_append _ _ _ _ (by omega)
  have e4 : (a ++ b).getD (o + extractAdtsFrameSize a o + 1) 0 =
      a.getD (o + extractAdtsFrameSize a o + 1) 0 := List.getD_append _ _ _ _ (by omega)
  rw [candAccept_iff] at h ⊢
  rw [hfs, e1, e2, e3, e4]
  obtain ⟨hA, hB, hC⟩ := h
  exact ⟨hA, hB, fun _ => hC hcorr⟩

/-- The candidate test only depends on the suffix from the candidate on. -/
theorem candAccept_drop {a : List Nat} {d o : Nat} (hdo : d ≤ o) (hda : d ≤ a.length) :
    candAccept (a.drop d) (o - d) = candAccept a o := by
  have hfs : extractAdtsFrameSize (a.drop d) (o - d) = extractAdtsFrameSize a o :=
    extractAdtsFrameSize_drop hdo
  rw [Bool.eq_iff_iff, candAccept_iff, candAccept_iff, hfs]
  rw [getD_drop, getD_drop, getD_drop, getD_drop, List.length_drop,
    show d + (o - d) = o by omega, show d + (o - d + 1) = o + 1 by omega,
    show d + (o - d + extractAdtsFrameSize a o) = o + extractAdtsFrameSize a o by omega,
    show d + (o - d + extractAdtsFrameSize a o + 1) = o + extractAdtsFrameSize a o + 1
      by omega]
  have hwin : (o - d + extractAdtsFrameSize a o + 2 ≤ a.length - d) ↔
      (o + extractAdtsFrameSize a o + 2 ≤ a.length) := by omega
  rw [hwin]

/-- The sync search only depends on the suffix from the scan position on. -/
theorem lookForSyncWord_drop {raw : List Nat} {d pos : Nat} (hd1 : d ≤ pos)
    (hd2 : d ≤ raw.length) :
    lookForSyncWord (raw.drop d) (pos - d) =
      ⟨(lookForSyncWord raw pos).found, (lookForSyncWord raw pos).newPos - d,
       (lookForSyncWord raw pos).frameSz⟩ := by
  cases hf : (lookForSyncWord raw pos).found
  · obtain ⟨hnp, hfs, hrej⟩ := lookForSyncWord_notfound hf
    have hres := @lookForSyncWord_eq_notfound (raw.drop d) (pos - d) ?_
    · rw [hres, hnp, hfs, List.length_drop]
      by_cases hg : raw.length ≤ pos + kAdtsHeaderMinSize
      · rw [if_pos hg, if_pos (by omega)]
      · rw [if_neg hg, if_neg (by omega)]
        refine congrArg (fun x => SyncResult.mk false x 0) ?_
        omega
    · intro o' ho1 ho2
      rw [List.length_drop] at ho2
      have : o' = (o' + d) - d := by omega
      rw [this, candAccept_drop (by omega) hd2]
      exact hrej (o' + d) (by omega) (by omega)
  · obtain ⟨hge, hlt, hacc, hfs, hrej⟩ := lookForSyncWord_found hf
    have hdnp : d ≤ (lookForSyncWord raw pos).newPos := le_trans hd1 hge
    have hres := @lookForSyncWord_eq_found
      (raw.drop d) (pos - d) ((lookForSyncWord raw pos).newPos - d)
      (by omega) (by rw [List.length_drop]; omega)
      (by rw [candAccept_drop hdnp hd2]; exact hacc) ?_
    · rw [hres, hfs, extractAdtsFrameSize_drop hdnp]
    · intro o' ho1 ho2
      have : o' = (o' + d) - d := by omega
      rw [this, candAccept_drop (by omega) hd2]
      exact hrej (o' + d) (by omega) (by omega)

theorem adtsParseLoop_look_congr (raw : List Nat) (sbr : Bool) (tid : Nat)
    (f pos pos' : Nat) (pl : List (Int × Int)) (cfg : Option AudioStreamInfo)
    (h : Option AudioTimestampHelper)
    (hl : lookForSyncWord raw pos = lookForSyncWord raw pos') :
    adtsParseLoop raw sbr tid (f + 1) pos pl cfg h =
      adtsParseLoop raw sbr tid (f + 1) pos' pl cfg h := by
  simp only [adtsParseLoop, hl]

theorem adtsParseLoop_congr (raw : List Nat) (sbr : Bool) (tid : Nat) :
    ∀ f₁ f₂ pos pl cfg h, raw.length + 1 ≤ f₁ + pos → raw.length + 1 ≤ f₂ + pos →
      adtsParseLoop raw sbr tid f₁ pos pl cfg h =
        adtsParseLoop raw sbr tid f₂ pos pl cfg h := by
  intro f₁
  induction f₁ with
  | zero =>
    intro f₂ pos pl cfg h h1 h2
    cases f₂ with
    | zero => rfl
    | succ m =>
      have hlook : lookForSyncWord raw pos = ⟨false, pos, 0⟩ := by
        unfold lookForSyncWord
        rw [if_pos (by unfold kAdtsHeaderMinSize; omega)]
      simp [adtsParseLoop, hlook]
  | succ n ih =>
    intro f₂ pos pl cfg h h1 h2
    cases f₂ with
    | zero =>
      have hlook : lookForSyncWord raw pos = ⟨false, pos, 0⟩ := by
        unfold lookForSyncWord
        rw [if_pos (by unfold kAdtsHeaderMinSize; omega)]
      simp [adtsParseLoop, hlook]
    | succ m =>
      simp only [adtsParseLoop]
      by_cases hf : (lookForSyncWord raw pos).found
      · by_cases hc : (lookForSyncWord raw pos).newPos +
            (lookForSyncWord raw pos).frameSz ≤ raw.length
        · cases hu : updateAudioConfiguration sbr tid cfg h raw
              (lookForSyncWord raw pos).newPos with
          | none => simp [hf, hc, hu]
          | some r =>
            obtain ⟨c1, g1, ev1⟩ := r
            simp only [hf, if_true, if_pos hc, hu]
            obtain ⟨hge, hlt, hacc, hfs, -⟩ := lookForSyncWord_found hf
            have h7 : kAdtsHeaderMinSize ≤ (lookForSyncWord raw pos).frameSz := by
              rw [hfs]; exact candAccept_min_frameSz hacc
            have hrec := ih m ((lookForSyncWord raw pos).newPos +
                (lookForSyncWord raw pos).frameSz)
              (popApplyPts pl g1 ((lookForSyncWord raw pos).newPos : Int)).1 (some c1)
              (some ((popApplyPts pl g1
                ((lookForSyncWord raw pos).newPos : Int)).2.addFrames kSamplesPerAACFrame))
              (by unfold kAdtsHeaderMinSize at h7; omega)
              (by unfold kAdtsHeaderMinSize at h7; omega)
            rw [hrec]
        · simp [hf, hc]
      · simp [hf]

theorem updateAudioConfiguration_append {sbr : Bool} {tid : Nat}
    {cfg : Option AudioStreamInfo} {h : Option AudioTimestampHelper}
    {a : List Nat} (b : List Nat) {off : Nat} (hoff : off + 4 ≤ a.length) :
    updateAudioConfiguration sbr tid cfg h (a ++ b) off =
      updateAudioConfiguration sbr tid cfg h a off := by
  cases cfg with
  | some c => rfl
  | none =>
    simp only [updateAudioConfiguration]
    rw [extractAdtsFrequencyIndex_append b (by omega),
      extractAdtsChannelConfig_append b hoff]

theorem updateAudioConfiguration_drop {sbr : Bool} {tid : Nat}
    {cfg : Option AudioStreamInfo} {h : Option AudioTimestampHelper}
    {a : List Nat} {d off : Nat} (hdo : d ≤ off) :
    updateAudioConfiguration sbr tid cfg h (a.drop d) (off - d) =
      updateAudioConfiguration sbr tid cfg h a off := by
  cases cfg with
  | some c => rfl
  | none =>
    simp only [updateAudioConfiguration]
    rw [extractAdtsFrequencyIndex_drop hdo, extractAdtsChannelConfig_drop hdo]

theorem popApplyPts_shift : ∀ (l : List (Int × Int)) (h : AudioTimestampHelper)
    (p c : Int),
    popApplyPts (l.map (fun e => (e.1 - c, e.2))) h (p - c) =
      ((popApplyPts l h p).1.map (fun e => (e.1 - c, e.2)), (popApplyPts l h p).2) := by
  intro l
  induction l with
  | nil => intro h p c; rfl
  | cons e rest ih =>
    intro h p c
    by_cases he : e.1 ≤ p
    · have he' : e.1 - c ≤ p - c := by omega
      simp only [List.map_cons, popApplyPts, if_pos he', if_pos he]
      exact ih (h.setBaseTimestamp e.2) p c
    · have he' : ¬ (e.1 - c ≤ p - c) := by omega
      simp only [List.map_cons, popApplyPts, if_neg he', if_neg he]

/-- The frame loop is equivariant under dropping an already-scanned prefix:
running it on the suffix with shifted position and shifted pending offsets
produces the same configuration, helper, emissions, result and
instrumentation, with position and offsets shifted. -/
theorem adtsParseLoop_shift (raw : List Nat) (sbr : Bool) (tid : Nat) :
    ∀ fuel pos d pl cfg h, d ≤ pos → d ≤ raw.length →
      adtsParseLoop (raw.drop d) sbr tid fuel (pos - d)
        (pl.map (fun e => (e.1 - (d : Int), e.2))) cfg h =
      ⟨(adtsParseLoop raw sbr tid fuel pos pl cfg h).pos - d,
       (adtsParseLoop raw sbr tid fuel pos pl cfg h).ptsList.map
         (fun e => (e.1 - (d : Int), e.2)),
       (adtsParseLoop raw sbr tid fuel pos pl cfg h).config,
       (adtsParseLoop raw sbr tid fuel pos pl cfg h).helper,
       (adtsParseLoop raw sbr tid fuel pos pl cfg h).events,
       (adtsParseLoop raw sbr tid fuel pos pl cfg h).ok,
       (adtsParseLoop raw sbr tid fuel pos pl cfg h).corrob⟩ := by
  intro fuel
  induction fuel with
  | zero => intro pos d pl cfg h hd1 hd2; rfl
  | succ n ih =>
    intro pos d pl cfg h hd1 hd2
    have hlook := @lookForSyncWord_drop raw d pos hd1 hd2
    by_cases hf : (lookForSyncWord raw pos).found
    · have hdnp : d ≤ (lookForSyncWord raw pos).newPos :=
        le_trans hd1 lookForSyncWord_ge
      by_cases hc : (lookForSyncWord raw pos).newPos +
          (lookForSyncWord raw pos).frameSz ≤ raw.length
      · have hc' : (lookForSyncWord raw pos).newPos - d +
            (lookForSyncWord raw pos).frameSz ≤ (raw.drop d).length := by
          rw [List.length_drop]; omega
        have hupd := @updateAudioConfiguration_drop sbr tid
          cfg h raw d
          (lookForSyncWord raw pos).newPos hdnp
        cases hu : updateAudioConfiguration sbr tid cfg h raw
            (lookForSyncWord raw pos).newPos with
        | none =>
          rw [hu] at hupd
          simp only [adtsParseLoop, hlook, hf, if_true, if_pos hc, if_pos hc', hupd, hu]
        | some r =>
          obtain ⟨c1, g1, ev1⟩ := r
          rw [hu] at hupd
          simp only [adtsParseLoop, hlook, hf, if_true, if_pos hc, if_pos hc', hupd, hu]
          have hcast : (((lookForSyncWord raw pos).newPos - d : Nat) : Int) =
              ((lookForSyncWord raw pos).newPos : Int) - (d : Int) := by omega
          rw [hcast, popApplyPts_shift pl g1 ((lookForSyncWord raw pos).newPos : Int)
            (d : Int)]
          have hdrop : (raw.drop d).drop ((lookForSyncWord raw pos).newPos - d) =
              raw.drop (lookForSyncWord raw pos).newPos := by
            rw [List.drop_drop, show d + ((lookForSyncWord raw pos).newPos - d) =
              (lookForSyncWord raw pos).newPos by omega]
          rw [hdrop]
          have hcor : decide ((lookForSyncWord raw pos).newPos - d +
              (lookForSyncWord raw pos).frameSz + 2 ≤ (raw.drop d).length) =
              decide ((lookForSyncWord raw pos).newPos +
                (lookForSyncWord raw pos).frameSz + 2 ≤ raw.length) := by
            apply decide_eq_decide.mpr
            rw [List.length_drop]
            omega
          rw [hcor]
          have hpos' : (lookForSyncWord raw pos).newPos - d +
              (lookForSyncWord raw pos).frameSz =
              ((lookForSyncWord raw pos).newPos + (lookForSyncWord raw pos).frameSz) - d :=
            by omega
          rw [hpos', ih ((lookForSyncWord raw pos).newPos +
              (lookForSyncWord raw pos).frameSz) d
            (popApplyPts pl g1 ((lookForSyncWord raw pos).newPos : Int)).1 (some c1)
            (some ((popApplyPts pl g1
              ((lookForSyncWord raw pos).newPos : Int)).2.addFrames kSamplesPerAACFrame))
            (by omega) hd2]
      · have hc' : ¬ ((lookForSyncWord raw pos).newPos - d +
            (lookForSyncWord raw pos).frameSz ≤ (raw.drop d).length) := by
          rw [List.length_drop]; omega
        simp only [adtsParseLoop, hlook, hf, if_true, if_neg hc, if_neg hc']
    · have hf' : (lookForSyncWord raw pos).found = false := by
        rw [Bool.not_eq_true] at hf
        exact hf
      simp only [adtsParseLoop, hlook, hf', Bool.false_eq_true, if_false]

/-- Aligning the extended-buffer loop with the follow-up call: if the scan
over `a ++ b` from `pos` coincides with the scan from `q` (everything in
between was rejected), its outcome is that of the follow-up run that starts
at the suffix `a.drop q ++ b`. -/
theorem loop_tail_align (a b : List Nat) (sbr : Bool) (tid : Nat)
    (fuelA pos q : Nat) (pl : List (Int × Int)) (cfg : Option AudioStreamInfo)
    (h : Option AudioTimestampHelper)
    (hpq : pos ≤ q) (hqa : q ≤ a.length)
    (hfA : (a ++ b).length + 1 ≤ fuelA + pos)
    (hlookEq : lookForSyncWord (a ++ b) pos = lookForSyncWord (a ++ b) q) :
    (adtsParseLoop (a ++ b) sbr tid fuelA pos pl cfg h).events =
      (continuationLoop a b sbr tid ⟨q, pl, cfg, h, [], true, true⟩).events ∧
    (adtsParseLoop (a ++ b) sbr tid fuelA pos pl cfg h).ok =
      (continuationLoop a b sbr tid ⟨q, pl, cfg, h, [], true, true⟩).ok := by
  have hlen : (a ++ b).length = a.length + b.length := List.length_append _ _
  obtain ⟨m, rfl⟩ : ∃ m, fuelA = m + 1 := ⟨fuelA - 1, by omega⟩
  rw [adtsParseLoop_look_congr (a ++ b) sbr tid m pos q pl cfg h hlookEq]
  have hshift := adtsParseLoop_shift (a ++ b) sbr tid (m + 1) q q pl cfg h
    (le_refl q) (by omega)
  rw [Nat.sub_self] at hshift
  have hdropq : (a ++ b).drop q = a.drop q ++ b := List.drop_append_of_le_length hqa
  rw [hdropq] at hshift
  have hdlen : (a.drop q ++ b).length = a.length - q + b.length := by
    rw [List.length_append, List.length_drop]
  have hcongr := adtsParseLoop_congr (a.drop q ++ b) sbr tid (m + 1)
    ((a.drop q ++ b).length + 1) 0 (pl.map (fun e => (e.1 - (q : Int), e.2))) cfg h
    (by omega) (by omega)
  have hev := congrArg AdtsLoopOut.events hshift
  have hok := congrArg AdtsLoopOut.ok hshift
  simp only at hev hok
  constructor
  · rw [← hev, hcongr]
    rfl
  · rw [← hok, hcongr]
    rfl

/-- The central chunk-boundary lemma: if the frame loop over the prefix `a`
succeeds and every frame it emitted was corroborated, then the loop over the
extended buffer `a ++ b` emits exactly the prefix loop's emissions followed
by those of the follow-up run on the unconsumed suffix plus `b`, and its
result is the follow-up run's result. -/
theorem adtsParseLoop_prefix (a b : List Nat) (sbr : Bool) (tid : Nat) :
    ∀ fuel₁ fuelA pos pl cfg h,
      pos ≤ a.length →
      a.length + 1 ≤ fuel₁ + pos →
      (a ++ b).length + 1 ≤ fuelA + pos →
      (adtsParseLoop a sbr tid fuel₁ pos pl cfg h).ok = true →
      (adtsParseLoop a sbr tid fuel₁ pos pl cfg h).corrob = true →
      (adtsParseLoop (a ++ b) sbr tid fuelA pos pl cfg h).events =
        (adtsParseLoop a sbr tid fuel₁ pos pl cfg h).events ++
        (continuationLoop a b sbr tid (adtsParseLoop a sbr tid fuel₁ pos pl cfg h)).events ∧
      (adtsParseLoop (a ++ b) sbr tid fuelA pos pl cfg h).ok =
        (continuationLoop a b sbr tid (adtsParseLoop a sbr tid fuel₁ pos pl cfg h)).ok := by
  intro fuel₁
  induction fuel₁ with
  | zero =>
    intro fuelA pos pl cfg h hpa h1 h2 hok hcorr
    exfalso
    omega
  | succ n ih =>
    intro fuelA pos pl cfg h hpa h1 h2 hok hcorr
    have hlen : (a ++ b).length = a.length + b.length := List.length_append _ _
    cases hf : (lookForSyncWord a pos).found
    · -- no frame found in the prefix: the prefix loop stops at the scan
      -- boundary and the extended loop aligns with the follow-up run there
      obtain ⟨hnp, -, hrej⟩ := lookForSyncWord_notfound hf
      have hL₁ : adtsParseLoop a sbr tid (n + 1) pos pl cfg h =
          ⟨(lookForSyncWord a pos).newPos, pl, cfg, h, [], true, true⟩ := by
        simp [adtsParseLoop, hf]
      have hge : pos ≤ (lookForSyncWord a pos).newPos := lookForSyncWord_ge
      have hle : (lookForSyncWord a pos).newPos ≤ a.length := lookForSyncWord_le hpa
      have hlookEq : lookForSyncWord (a ++ b) pos =
          lookForSyncWord (a ++ b) (lookForSyncWord a pos).newPos := by
        by_cases hg : a.length ≤ pos + kAdtsHeaderMinSize
        · rw [hnp, if_pos hg]
        · rw [hnp, if_neg hg]
          refine lookForSyncWord_skip (a.length - kAdtsHeaderMinSize - pos) pos
            (a.length - kAdtsHeaderMinSize) rfl (by omega) (by omega) ?_
          intro o ho1 ho2
          exact candAccept_append_reject b (by omega)
            (hrej o ho1 (by omega))
      obtain ⟨he, ho⟩ := loop_tail_align a b sbr tid fuelA pos
        (lookForSyncWord a pos).newPos pl cfg h hge hle h2 hlookEq
      rw [hL₁, he, ho]
      exact ⟨rfl, rfl⟩
    · obtain ⟨hge, hlt, hacc, hfs, hrejb⟩ := lookForSyncWord_found hf
      by_cases hc : (lookForSyncWord a pos).newPos +
          (lookForSyncWord a pos).frameSz ≤ a.length
      · cases hu : updateAudioConfiguration sbr tid cfg h a
            (lookForSyncWord a pos).newPos with
        | none =>
          exfalso
          have : (adtsParseLoop a sbr tid (n + 1) pos pl cfg h).ok = false := by
            simp [adtsParseLoop, hf, hc, hu]
          rw [this] at hok
          exact Bool.noConfusion hok
        | some r =>
          obtain ⟨c1, g1, ev1⟩ := r
          have hK : kAdtsHeaderMinSize = 7 := rfl
          have hmin : kAdtsHeaderMinSize ≤ (lookForSyncWord a pos).frameSz := by
            rw [hfs]; exact candAccept_min_frameSz hacc
          obtain ⟨mA, rfl⟩ : ∃ mA, fuelA = mA + 1 := ⟨fuelA - 1, by omega⟩
          -- the one-step unfolding of the prefix loop
          have hstepA : adtsParseLoop a sbr tid (n + 1) pos pl cfg h =
              ⟨(adtsParseLoop a sbr tid n ((lookForSyncWord a pos).newPos +
                  (lookForSyncWord a pos).frameSz)
                  (popApplyPts pl g1 ((lookForSyncWord a pos).newPos : Int)).1 (some c1)
                  (some ((popApplyPts pl g1
                    ((lookForSyncWord a pos).newPos : Int)).2.addFrames
                    kSamplesPerAACFrame))).pos,
               (adtsParseLoop a sbr tid n ((lookForSyncWord a pos).newPos +
                  (lookForSyncWord a pos).frameSz)
                  (popApplyPts pl g1 ((lookForSyncWord a pos).newPos : Int)).1 (some c1)
                  (some ((popApplyPts pl g1
                    ((lookForSyncWord a pos).newPos : Int)).2.addFrames
                    kSamplesPerAACFrame))).ptsList,
               (adtsParseLoop a sbr tid n ((lookForSyncWord a pos).newPos +
                  (lookForSyncWord a pos).frameSz)
                  (popApplyPts pl g1 ((lookForSyncWord a pos).newPos : Int)).1 (some c1)
                  (some ((popApplyPts pl g1
                    ((lookForSyncWord a pos).newPos : Int)).2.addFrames
                    kSamplesPerAACFrame))).config,
               (adtsParseLoop a sbr tid n ((lookForSyncWord a pos).newPos +
                  (lookForSyncWord a pos).frameSz)
                  (popApplyPts pl g1 ((lookForSyncWord a pos).newPos : Int)).1 (some c1)
                  (some ((popApplyPts pl g1
                    ((lookForSyncWord a pos).newPos : Int)).2.addFrames
                    kSamplesPerAACFrame))).helper,
               ev1 ++ EsEvent.sampleReady ((a.drop (lookForSyncWord a pos).newPos).take
                   (lookForSyncWord a pos).frameSz)
                 (popApplyPts pl g1 ((lookForSyncWord a pos).newPos : Int)).2.getTimestamp
                 (popApplyPts pl g1 ((lookForSyncWord a pos).newPos : Int)).2.getTimestamp
                 ((popApplyPts pl g1
                   ((lookForSyncWord a pos).newPos : Int)).2.getFrameDuration
                   kSamplesPerAACFrame) true ::
                 (adtsParseLoop a sbr tid n ((lookForSyncWord a pos).newPos +
                    (lookForSyncWord a pos).frameSz)
                    (popApplyPts pl g1 ((lookForSyncWord a pos).newPos : Int)).1 (some c1)
                    (some ((popApplyPts pl g1
                      ((lookForSyncWord a pos).newPos : Int)).2.addFrames
                      kSamplesPerAACFrame))).events,
               (adtsParseLoop a sbr tid n ((lookForSyncWord a pos).newPos +
                  (lookForSyncWord a pos).frameSz)
                  (popApplyPts pl g1 ((lookForSyncWord a pos).newPos : Int)).1 (some c1)
                  (some ((popApplyPts pl g1
                    ((lookForSyncWord a pos).newPos : Int)).2.addFrames
                    kSamplesPerAACFrame))).ok,
               decide ((lookForSyncWord a pos).newPos +
                   (lookForSyncWord a pos).frameSz + 2 ≤ a.length) &&
                 (adtsParseLoop a sbr tid n ((lookForSyncWord a pos).newPos +
                    (lookForSyncWord a pos).frameSz)
                    (popApplyPts pl g1 ((lookForSyncWord a pos).newPos : Int)).1 (some c1)
                    (some ((popApplyPts pl g1
                      ((lookForSyncWord a pos).newPos : Int)).2.addFrames
                      kSamplesPerAACFrame))).corrob⟩ := by
            simp only [adtsParseLoop, hf, if_true, if_pos hc, hu]
          -- success and corroboration of the recursive prefix run
          have hokRest : (adtsParseLoop a sbr tid n ((lookForSyncWord a pos).newPos +
              (lookForSyncWord a pos).frameSz)
              (popApplyPts pl g1 ((lookForSyncWord a pos).newPos : Int)).1 (some c1)
              (some ((popApplyPts pl g1
                ((lookForSyncWord a pos).newPos : Int)).2.addFrames
                kSamplesPerAACFrame))).ok = true := by
            rw [hstepA] at hok
            exact hok
          have hcorrAnd : (decide ((lookForSyncWord a pos).newPos +
              (lookForSyncWord a pos).frameSz + 2 ≤ a.length) &&
              (adtsParseLoop a sbr tid n ((lookForSyncWord a pos).newPos +
                (lookForSyncWord a pos).frameSz)
                (popApplyPts pl g1 ((lookForSyncWord a pos).newPos : Int)).1 (some c1)
                (some ((popApplyPts pl g1
                  ((lookForSyncWord a pos).newPos : Int)).2.addFrames
                  kSamplesPerAACFrame))).corrob) = true := by
            rw [hstepA] at hcorr
            exact hcorr
          rw [Bool.and_eq_true] at hcorrAnd
          obtain ⟨hcorrHere, hcorrRest⟩ := hcorrAnd
          have hwin : (lookForSyncWord a pos).newPos +
              (lookForSyncWord a pos).frameSz + 2 ≤ a.length :=
            of_decide_eq_true hcorrHere
          -- the extended buffer accepts the very same frame (corroboration
          -- makes acceptance stable under appending)
          have haccE : candAccept (a ++ b) (lookForSyncWord a pos).newPos = true :=
            candAccept_append_accept b hlt hacc (by rw [← hfs]; omega)
          have hFSE : extractAdtsFrameSize (a ++ b) (lookForSyncWord a pos).newPos =
              extractAdtsFrameSize a (lookForSyncWord a pos).newPos :=
            extractAdtsFrameSize_append b (by omega)
          have hlookE : lookForSyncWord (a ++ b) pos =
              ⟨true, (lookForSyncWord a pos).newPos, (lookForSyncWord a pos).frameSz⟩ := by
            rw [lookForSyncWord_eq_found hge (by omega) haccE
              (fun o ho1 ho2 => candAccept_append_reject b (by omega) (hrejb o ho1 ho2)),
              hFSE, ← hfs]
          have hcE : (lookForSyncWord a pos).newPos + (lookForSyncWord a pos).frameSz ≤
              (a ++ b).length := by omega
          have hupdE : updateAudioConfiguration sbr tid cfg h (a ++ b)
              (lookForSyncWord a pos).newPos = some (c1, g1, ev1) := by
            rw [updateAudioConfiguration_append b (by omega), hu]
          -- the one-step unfolding of the extended loop
          have hstepB : adtsParseLoop (a ++ b) sbr tid (mA + 1) pos pl cfg h =
              ⟨(adtsParseLoop (a ++ b) sbr tid mA ((lookForSyncWord a pos).newPos +
                  (lookForSyncWord a pos).frameSz)
                  (popApplyPts pl g1 ((lookForSyncWord a pos).newPos : Int)).1 (some c1)
                  (some ((popApplyPts pl g1
                    ((lookForSyncWord a pos).newPos : Int)).2.addFrames
                    kSamplesPerAACFrame))).pos,
               (adtsParseLoop (a ++ b) sbr tid mA ((lookForSyncWord a pos).newPos +
                  (lookForSyncWord a pos).frameSz)
                  (popApplyPts pl g1 ((lookForSyncWord a pos).newPos : Int)).1 (some c1)
                  (some ((popApplyPts pl g1
                    ((lookForSyncWord a pos).newPos : Int)).2.addFrames
                    kSamplesPerAACFrame))).ptsList,
               (adtsParseLoop (a ++ b) sbr tid mA ((lookForSyncWord a pos).newPos +
                  (lookForSyncWord a pos).frameSz)
                  (popApplyPts pl g1 ((lookForSyncWord a pos).newPos : Int)).1 (some c1)
                  (some ((popApplyPts pl g1
                    ((lookForSyncWord a pos).newPos : Int)).2.addFrames
                    kSamplesPerAACFrame))).config,
               (adtsParseLoop (a ++ b) sbr tid mA ((lookForSyncWord a pos).newPos +
                  (lookForSyncWord a pos).frameSz)
                  (popApplyPts pl g1 ((lookForSyncWord a pos).newPos : Int)).1 (some c1)
                  (some ((popApplyPts pl g1
                    ((lookForSyncWord a pos).newPos : Int)).2.addFrames
                    kSamplesPerAACFrame))).helper,
               ev1 ++ EsEvent.sampleReady (((a ++ b).drop
                   (lookForSyncWord a pos).newPos).take (lookForSyncWord a pos).frameSz)
                 (popApplyPts pl g1 ((lookForSyncWord a pos).newPos : Int)).2.getTimestamp
                 (popApplyPts pl g1 ((lookForSyncWord a pos).newPos : Int)).2.getTimestamp
                 ((popApplyPts pl g1
                   ((lookForSyncWord a pos).newPos : Int)).2.getFrameDuration
                   kSamplesPerAACFrame) true ::
                 (adtsParseLoop (a ++ b) sbr tid mA ((lookForSyncWord a pos).newPos +
                    (lookForSyncWord a pos).frameSz)
                    (popApplyPts pl g1 ((lookForSyncWord a pos).newPos : Int)).1 (some c1)
                    (some ((popApplyPts pl g1
                      ((lookForSyncWord a pos).newPos : Int)).2.addFrames
                      kSamplesPerAACFrame))).events,
               (adtsParseLoop (a ++ b) sbr tid mA ((lookForSyncWord a pos).newPos +
                  (lookForSyncWord a pos).frameSz)
                  (popApplyPts pl g1 ((lookForSyncWord a pos).newPos : Int)).1 (some c1)
                  (some ((popApplyPts pl g1
                    ((lookForSyncWord a pos).newPos : Int)).2.addFrames
                    kSamplesPerAACFrame))).ok,
               decide ((lookForSyncWord a pos).newPos +
                   (lookForSyncWord a pos).frameSz + 2 ≤ (a ++ b).length) &&
                 (adtsParseLoop (a ++ b) sbr tid mA ((lookForSyncWord a pos).newPos +
                    (lookForSyncWord a pos).frameSz)
                    (popApplyPts pl g1 ((lookForSyncWord a pos).newPos : Int)).1 (some c1)
                    (some ((popApplyPts pl g1
                      ((lookForSyncWord a pos).newPos : Int)).2.addFrames
                      kSamplesPerAACFrame))).corrob⟩ := by
            simp only [adtsParseLoop, hlookE, if_true, if_pos hcE, hupdE]
          -- induction hypothesis applied after the common frame step
          obtain ⟨ihE, ihO⟩ := ih mA
            ((lookForSyncWord a pos).newPos + (lookForSyncWord a pos).frameSz)
            (popApplyPts pl g1 ((lookForSyncWord a pos).newPos : Int)).1 (some c1)
            (some ((popApplyPts pl g1
              ((lookForSyncWord a pos).newPos : Int)).2.addFrames kSamplesPerAACFrame))
            hc (by omega) (by omega) hokRest hcorrRest
          -- the continuation depends only on the loop's state fields
          have hcont : continuationLoop a b sbr tid
              ⟨(adtsParseLoop a sbr tid n ((lookForSyncWord a pos).newPos +
                  (lookForSyncWord a pos).frameSz)
                  (popApplyPts pl g1 ((lookForSyncWord a pos).newPos : Int)).1 (some c1)
                  (some ((popApplyPts pl g1
                    ((lookForSyncWord a pos).newPos : Int)).2.addFrames
                    kSamplesPerAACFrame))).pos,
               (adtsParseLoop a sbr tid n ((lookForSyncWord a pos).newPos +
                  (lookForSyncWord a pos).frameSz)
                  (popApplyPts pl g1 ((lookForSyncWord a pos).newPos : Int)).1 (some c1)
                  (some ((popApplyPts pl g1
                    ((lookForSyncWord a pos).newPos : Int)).2.addFrames
                    kSamplesPerAACFrame))).ptsList,
               (adtsParseLoop a sbr tid n ((lookForSyncWord a pos).newPos +
                  (lookForSyncWord a pos).frameSz)
                  (popApplyPts pl g1 ((lookForSyncWord a pos).newPos : Int)).1 (some c1)
                  (some ((popApplyPts pl g1
                    ((lookForSyncWord a pos).newPos : Int)).2.addFrames
                    kSamplesPerAACFrame))).config,
               (adtsParseLoop a sbr tid n ((lookForSyncWord a pos).newPos +
                  (lookForSyncWord a pos).frameSz)
                  (popApplyPts pl g1 ((lookForSyncWord a pos).newPos : Int)).1 (some c1)
                  (some ((popApplyPts pl g1
                    ((lookForSyncWord a pos).newPos : Int)).2.addFrames
                    kSamplesPerAACFrame))).helper,
               ev1 ++ EsEvent.sampleReady ((a.drop (lookForSyncWord a pos).newPos).take
                   (lookForSyncWord a pos).frameSz)
                 (popApplyPts pl g1 ((lookForSyncWord a pos).newPos : Int)).2.getTimestamp
                 (popApplyPts pl g1 ((lookForSyncWord a pos).newPos : Int)).2.getTimestamp
                 ((popApplyPts pl g1
                   ((lookForSyncWord a pos).newPos : Int)).2.getFrameDuration
                   kSamplesPerAACFrame) true ::
                 (adtsParseLoop a sbr tid n ((lookForSyncWord a pos).newPos +
                    (lookForSyncWord a pos).frameSz)
                    (popApplyPts pl g1 ((lookForSyncWord a pos).newPos : Int)).1 (some c1)
                    (some ((popApplyPts pl g1
                      ((lookForSyncWord a pos).newPos : Int)).2.addFrames
                      kSamplesPerAACFrame))).events,
               (adtsParseLoop a sbr tid n ((lookForSyncWord a pos).newPos +
                  (lookForSyncWord a pos).frameSz)
                  (popApplyPts pl g1 ((lookForSyncWord a pos).newPos : Int)).1 (some c1)
                  (some ((popApplyPts pl g1
                    ((lookForSyncWord a pos).newPos : Int)).2.addFrames
                    kSamplesPerAACFrame))).ok,
               decide ((lookForSyncWord a pos).newPos +
                   (lookForSyncWord a pos).frameSz + 2 ≤ a.length) &&
                 (adtsParseLoop a sbr tid n ((lookForSyncWord a pos).newPos +
                    (lookForSyncWord a pos).frameSz)
                    (popApplyPts pl g1 ((lookForSyncWord a pos).newPos : Int)).1 (some c1)
                    (some ((popApplyPts pl g1
                      ((lookForSyncWord a pos).newPos : Int)).2.addFrames
                      kSamplesPerAACFrame))).corrob⟩ =
              continuationLoop a b sbr tid
                (adtsParseLoop a sbr tid n ((lookForSyncWord a pos).newPos +
                  (lookForSyncWord a pos).frameSz)
                  (popApplyPts pl g1 ((lookForSyncWord a pos).newPos : Int)).1 (some c1)
                  (some ((popApplyPts pl g1
                    ((lookForSyncWord a pos).newPos : Int)).2.addFrames
                    kSamplesPerAACFrame))) := rfl
          have hpayload : (((a ++ b).drop (lookForSyncWord a pos).newPos).take
              (lookForSyncWord a pos).frameSz) =
              ((a.drop (lookForSyncWord a pos).newPos).take
                (lookForSyncWord a pos).frameSz) := by
            rw [List.drop_append_of_le_length (by omega),
              List.take_append_of_le_length (by rw [List.length_drop]; omega)]
          refine ⟨?_, ?_⟩
          · rw [hstepB, hstepA]
            dsimp only
            rw [hcont, ihE, hpayload, List.append_assoc, List.cons_append]
          · rw [hstepB, hstepA]
            dsimp only
            rw [hcont]
            exact ihO
      · -- a partial frame at the end of the prefix: the prefix loop stops at
        -- the frame start and the extended loop aligns with the follow-up
        have hL₁ : adtsParseLoop a sbr tid (n + 1) pos pl cfg h =
            ⟨(lookForSyncWord a pos).newPos, pl, cfg, h, [], true, true⟩ := by
          simp [adtsParseLoop, hf, hc]
        have hlookEq : lookForSyncWord (a ++ b) pos =
            lookForSyncWord (a ++ b) (lookForSyncWord a pos).newPos := by
          refine lookForSyncWord_skip ((lookForSyncWord a pos).newPos - pos) pos
            (lookForSyncWord a pos).newPos rfl hge (by omega) ?_
          intro o ho1 ho2
          exact candAccept_append_reject b (by omega) (hrejb o ho1 ho2)
        obtain ⟨he, ho⟩ := loop_tail_align a b sbr tid fuelA pos
          (lookForSyncWord a pos).newPos pl cfg h hge (by omega) h2 hlookEq
        rw [hL₁, he, ho]
        exact ⟨rfl, rfl⟩

/-- C3: the ES parser's extended (SBR) sample rate is computed but not
recorded.  With the SBR flag set at construction and a first frame carrying
frequency index 4 (table rate 44100), the source computes
`extended_samples_per_second = min(2·44100, 48000) = 48000` but constructs the
`AudioStreamInfo` with the uncorrected 44100: the sample rate recorded in the
established configuration does not equal `min(2 × table rate, 48000)` as the
claim states. -/
theorem adts_sbr_extended_rate_not_recorded :
    ((mkEsParserAdts 1 true).parse (adtsFrameA ++ adtsFrameA) (some 0) none).events =
      [EsEvent.configReady ⟨1, 90000, kInfiniteDuration, kCodecAAC, 16, 1, 44100⟩,
       EsEvent.sampleReady adtsFrameA 0 0 2089 true] ∧
    extendedSampleRate true 44100 = 48000 ∧ (44100 : Int) ≠ 48000 := by
  decide

/-- C6: the container walker's `kError` state is terminal.  For every
behaviour of the sub-parsers, every input and every state in `kError`, `Parse`
returns failure with the walker state — byte queue included — completely
unchanged and no emissions, and `Flush` never leaves the `kError` state. -/
theorem webm_error_state_terminal (env : WebMEnv) (s : WebMMediaParser)
    (buf : List Nat) (h : s.state = .error) :
    webmParse env s buf = (false, s, []) ∧ (webmFlush env s).state = .error := by
  constructor
  · simp [webmParse, h]
  · cases hc : s.clusterParser <;> simp [webmFlush, h, hc]

theorem webm_error_state_terminal_witness :
    webmParse trivialWebMEnv ⟨.error, [7], none, false⟩ [1, 2] =
      (false, ⟨.error, [7], none, false⟩, []) ∧
    (webmFlush trivialWebMEnv ⟨.error, [7], none, false⟩).state = .error :=
  webm_error_state_terminal trivialWebMEnv ⟨.error, [7], none, false⟩ [1, 2] rfl

/-- C7 (counterexample): a `Parse` call in the `kWaitingForInit` state does
append the supplied bytes to the walker's byte queue — the claim's "the
supplied bytes are not appended" is false. -/
theorem webm_parse_before_init_counterexample :
    (webmParse trivialWebMEnv mkWebMMediaParser [26]).1 = false ∧
    (webmParse trivialWebMEnv mkWebMMediaParser [26]).2.1.byteQueue = [26] := by
  decide

/-- C7 (amended): every `Parse` call made while the walker is in
`kWaitingForInit` fails whenever any bytes are buffered (the degenerate call
with empty input on an empty queue returns success), consumes nothing, and
changes no walker state other than appending the supplied bytes to the byte
queue; in particular the bytes ARE appended, the state stays
`kWaitingForInit`, and no emission fires. -/
theorem webm_parse_awaiting_init_behavior (env : WebMEnv) (s : WebMMediaParser)
    (buf : List Nat) (h : s.state = .waitingForInit) :
    (webmParse env s buf).1 = (s.byteQueue ++ buf).isEmpty ∧
    (webmParse env s buf).2.1.byteQueue = s.byteQueue ++ buf ∧
    (webmParse env s buf).2.1.state = .waitingForInit ∧
    (webmParse env s buf).2.1.clusterParser = s.clusterParser ∧
    (webmParse env s buf).2.1.unknownSegmentSize = s.unknownSegmentSize ∧
    (webmParse env s buf).2.2 = [] := by
  cases hq : s.byteQueue ++ buf with
  | nil => simp [webmParse, h, hq, webmParseLoop]
  | cons a l => simp [webmParse, h, hq, webmParseLoop]

theorem webm_parse_awaiting_init_behavior_witness :
    (webmParse trivialWebMEnv mkWebMMediaParser [3, 4]).1 = false ∧
    (webmParse trivialWebMEnv mkWebMMediaParser [3, 4]).2.1.byteQueue = [3, 4] := by
  have h := webm_parse_awaiting_init_behavior trivialWebMEnv mkWebMMediaParser [3, 4] rfl
  exact ⟨h.1, h.2.1⟩

theorem parse_corrob_eq (s : EsParserAdts) (buf : List Nat) (pts dts : Option Int) :
    (s.parse buf pts dts).corrob = (parseLoopOf s buf pts).corrob := by
  rw [parse_eq]
  by_cases h : (parseLoopOf s buf pts).ok <;> simp [h]

/-- C1 (amended): chunk-boundary independence of the ES parser holds exactly
up to speculative acceptance at a chunk end.  Whenever a `Parse` call
succeeds and every frame it emitted was corroborated (a full corroboration
window was buffered for each — the `corrob` instrumentation bit), then
feeding that call's bytes together with any continuation `c2` in a single
call produces exactly the first call's emissions followed by those of the
follow-up call on `c2`, with the same success verdict; without the
corroboration hypothesis this fails (see the counterexample). -/
theorem adts_chunk_independence_corroborated (s : EsParserAdts) (c1 c2 : List Nat)
    (p d d' : Option Int)
    (h1 : (s.parse c1 p d).ok = true)
    (h2 : (s.parse c1 p d).corrob = true) :
    (s.parse (c1 ++ c2) p d).events =
      (s.parse c1 p d).events ++ ((s.parse c1 p d).state.parse c2 none d').events ∧
    (s.parse (c1 ++ c2) p d).ok = ((s.parse c1 p d).state.parse c2 none d').ok := by
  have hok1 : (parseLoopOf s c1 p).ok = true := by
    rw [← parse_ok_eq s c1 p d]; exact h1
  have hco1 : (parseLoopOf s c1 p).corrob = true := by
    rw [← parse_corrob_eq s c1 p d]; exact h2
  have hq1 : (s.parse c1 p d).state.esByteQueue =
      (s.esByteQueue ++ c1).drop (parseLoopOf s c1 p).pos := by
    rw [parse_state_queue s c1 p d, if_pos hok1]
  have hpl1 : (s.parse c1 p d).state.ptsList =
      (parseLoopOf s c1 p).ptsList.map
        (fun e => (e.1 - ((parseLoopOf s c1 p).pos : Int), e.2)) := by
    rw [parse_state_ptsList s c1 p d, if_pos hok1]
  have hsecond : parseLoopOf (s.parse c1 p d).state c2 none =
      continuationLoop (s.esByteQueue ++ c1) c2 s.sbrInMimetype s.trackId
        (parseLoopOf s c1 p) := by
    show adtsParseLoop ((s.parse c1 p d).state.esByteQueue ++ c2)
        (s.parse c1 p d).state.sbrInMimetype (s.parse c1 p d).state.trackId
        (((s.parse c1 p d).state.esByteQueue ++ c2).length + 1) 0
        (s.parse c1 p d).state.ptsList
        (s.parse c1 p d).state.lastAudioDecoderConfig
        (s.parse c1 p d).state.audioTimestampHelper = _
    rw [hq1, hpl1, parse_config_eq s c1 p d, parse_helper_eq s c1 p d,
      (parse_state_track s c1 p d).1, (parse_state_track s c1 p d).2]
    rfl
  have hcombined : parseLoopOf s (c1 ++ c2) p =
      adtsParseLoop ((s.esByteQueue ++ c1) ++ c2) s.sbrInMimetype s.trackId
        (((s.esByteQueue ++ c1) ++ c2).length + 1) 0 (recordedPtsList s p)
        s.lastAudioDecoderConfig s.audioTimestampHelper := by
    unfold parseLoopOf
    rw [← List.append_assoc]
  obtain ⟨hE, hO⟩ := adtsParseLoop_prefix (s.esByteQueue ++ c1) c2 s.sbrInMimetype
    s.trackId ((s.esByteQueue ++ c1).length + 1) (((s.esByteQueue ++ c1) ++ c2).length + 1)
    0 (recordedPtsList s p) s.lastAudioDecoderConfig s.audioTimestampHelper
    (by omega) (by omega) (by omega) hok1 hco1
  constructor
  · rw [parse_events_eq s (c1 ++ c2) p d, parse_events_eq s c1 p d,
      parse_events_eq (s.parse c1 p d).state c2 none d', hsecond, hcombined]
    exact hE
  · rw [parse_ok_eq s (c1 ++ c2) p d, parse_ok_eq (s.parse c1 p d).state c2 none d',
      hsecond, hcombined]
    exact hO

theorem adts_chunk_independence_corroborated_witness :
    ((mkEsParserAdts 1 false).parse (adtsFrameA ++ adtsFrameA) (some 0) none).ok = true ∧
    ((mkEsParserAdts 1 false).parse (adtsFrameA ++ adtsFrameA) (some 0) none).corrob
      = true ∧
    ((mkEsParserAdts 1 false).parse ((adtsFrameA ++ adtsFrameA) ++ adtsFrameA)
        (some 0) none).events =
      ((mkEsParserAdts 1 false).parse (adtsFrameA ++ adtsFrameA) (some 0) none).events ++
      (((mkEsParserAdts 1 false).parse (adtsFrameA ++ adtsFrameA)
          (some 0) none).state.parse adtsFrameA none none).events ∧
    ((mkEsParserAdts 1 false).parse ((adtsFrameA ++ adtsFrameA) ++ adtsFrameA)
        (some 0) none).ok =
      (((mkEsParserAdts 1 false).parse (adtsFrameA ++ adtsFrameA)
          (some 0) none).state.parse adtsFrameA none none).ok :=
  ⟨by decide, by decide,
    adts_chunk_independence_corroborated (mkEsParserAdts 1 false)
      (adtsFrameA ++ adtsFrameA) adtsFrameA (some 0) none none
      (by decide) (by decide)⟩

/-- C1 (counterexample): chunk-boundary independence fails.  The 9-byte
sequence `adtsFrameA ++ [0, 0]` fed as one `Parse` call emits nothing (the
candidate frame at offset 0 is corroboration-rejected), while the split into
an 8-byte call followed by a 1-byte call — same bytes, same timestamp at the
same position — emits a configuration and a sample from the first call (the
candidate is accepted speculatively because the corroboration window is not
yet buffered). -/
theorem adts_chunk_split_counterexample :
    ((mkEsParserAdts 1 false).parse (adtsFrameA ++ [0, 0]) (some 0) none).events ≠
      ((mkEsParserAdts 1 false).parse (adtsFrameA ++ [0]) (some 0) none).events ++
      (((mkEsParserAdts 1 false).parse (adtsFrameA ++ [0]) (some 0) none).state.parse
        [0] none none).events ∧
    ((mkEsParserAdts 1 false).parse (adtsFrameA ++ [0, 0]) (some 0) none).events = [] ∧
    (((mkEsParserAdts 1 false).parse (adtsFrameA ++ [0]) (some 0) none).events ++
      (((mkEsParserAdts 1 false).parse (adtsFrameA ++ [0]) (some 0) none).state.parse
        [0] none none).events).length = 2 := by
  decide

/-- C2 (counterexample): `Reset` does not clear the timestamp helper, so
re-feeding a byte sequence that never received a supplied timestamp does not
reproduce the original emissions: the re-fed epoch's first sample carries
pts 2089 (the pre-Reset timeline position preserved through the helper)
instead of the original 0. -/
theorem adts_reset_refeed_counterexample :
    (runEs ((runEs (mkEsParserAdts 1 false) [(adtsFrameA ++ adtsFrameA, none)]).1.reset)
      [(adtsFrameA ++ adtsFrameA, none)]).2 ≠
    (runEs (mkEsParserAdts 1 false) [(adtsFrameA ++ adtsFrameA, none)]).2 := by
  decide

/-- C4 (counterexample): the sync scan never examines the final candidate
offset `bufferSize − minHeaderSize`.  A buffer of exactly `kAdtsHeaderMinSize`
bytes whose initial bytes form a valid sync pattern with an acceptable
declared frame size (`candAccept` holds at offset 0) is reported as "no frame
found" with the position unchanged, contradicting the claim that the search
started at offset 0 reports a frame at offset 0. -/
theorem adts_syncscan_final_offset_counterexample :
    (lookForSyncWord adtsFrameA 0).found = false ∧
    (lookForSyncWord adtsFrameA 0).newPos = 0 ∧
    adtsFrameA.length = kAdtsHeaderMinSize ∧
    isAdtsSyncWord (adtsFrameA.getD 0 0) (adtsFrameA.getD 1 0) = true ∧
    extractAdtsFrameSize adtsFrameA 0 = kAdtsHeaderMinSize ∧
    candAccept adtsFrameA 0 = true := by
  decide

/-- C5 (counterexample): a pending-timestamp offset becomes negative.  A fresh
parser fed 20 zero bytes (no sync word anywhere) with a supplied pts records
the timestamp at offset 0; the end-of-call discard of 13 bytes shifts it to
−13 < 0, and the call still returns success. -/
theorem adts_pts_offset_negative_counterexample :
    ((mkEsParserAdts 1 false).parse (List.replicate 20 0) (some 5) none).state.ptsList
      = [(-13, 5)] ∧
    ((mkEsParserAdts 1 false).parse (List.replicate 20 0) (some 5) none).ok = true ∧
    (-13 : Int) < 0 := by
  decide

end Demux
